import Mathlib

/-!
Verification of the analytical core of the CIS407 transportation system:
a shallow embedding of `backend/route_optimizer.py` (greedy cluster
assignment) and `machine_learning/delivery_predictor.py` (feature
derivation, training fallback logic, prediction, persistence guard),
with theorems settling the specification's claims about them.

Conventions used throughout:
* Python `int` values (ids, loads, capacities) are Lean `Int`.
* Python `float` cells are `ℚ`; a pandas `NaN` cell is `Option.none`.
* A Python `dict` keyed by ids is either a total function `Int → Int`
  (the optimizer's `vehicle_loads`, whose read keys always exist) or an
  association list (the predictor's lookup tables).
* Code that can raise is `Except String`.
-/

namespace TransportationSystem

/-- One pending-delivery row (`route_optimizer.py`, `_get_pending_deliveries`):
the optimizer only ever reads `Order_ID` and `StoreID`, both integer columns of
`DeliveryLog`. -/
structure Delivery where
  orderId : Int
  storeId : Int
  deriving DecidableEq, Repr

/-- One available-vehicle row (`route_optimizer.py`, `_get_available_vehicles`):
`VehicleID` together with the aggregated `Current_Load` count. -/
structure Vehicle where
  vehicleId : Int
  currentLoad : Int
  deriving DecidableEq, Repr

/-- One element of the `assignments` list built by `_assign_clusters_to_vehicles` /
`_split_and_assign_cluster`; the Python dict's `delivery_count` entry is always
`len(deliveries)` and is kept as the derived value `deliveries.length`. -/
structure Assignment where
  vehicleId : Int
  storeId : Int
  deliveries : List Delivery
  deriving DecidableEq, Repr

/-- Point update of the `vehicle_loads` dict, modelled as a total function. -/
def updateLoad (m : Int → Int) (k v : Int) : Int → Int :=
  fun i => if i = k then v else m i

/-- `vehicle_loads = {v['VehicleID']: v.get('Current_Load', 0) for v in vehicles}`
(line 183).  As in a Python dict comprehension, a later duplicate key overwrites an
earlier one; keys absent from `vehicles` default to `0` and are never read. -/
def initLoads (vehicles : List Vehicle) : Int → Int :=
  vehicles.foldl (fun m v => updateLoad m v.vehicleId v.currentLoad) (fun _ => 0)

/-- The vehicle scan of lines 190–201: `best_vehicle = None; min_load = inf;` then for
each vehicle whose `current_load + len(store_deliveries) <= max_per_vehicle`, keep it
when `current_load < min_load`.  The accumulator `none` models
`(best_vehicle, min_load) = (None, inf)`, so the first feasible vehicle always
replaces it. -/
def findBestVehicleAux (loads : Int → Int) (size maxPer : Int) :
    List Vehicle → Option (Int × Int) → Option (Int × Int)
  | [], acc => acc
  | v :: vs, acc =>
    let cl := loads v.vehicleId
    if cl + size ≤ maxPer then
      match acc with
      | none => findBestVehicleAux loads size maxPer vs (some (v.vehicleId, cl))
      | some (b, m) =>
        if cl < m then findBestVehicleAux loads size maxPer vs (some (v.vehicleId, cl))
        else findBestVehicleAux loads size maxPer vs (some (b, m))
    else findBestVehicleAux loads size maxPer vs acc

/-- The whole scan, started from `(None, inf)`. -/
def findBestVehicle (vehicles : List Vehicle) (loads : Int → Int) (size maxPer : Int) :
    Option (Int × Int) :=
  findBestVehicleAux loads size maxPer vehicles none

/-- The capacity scan of `_split_and_assign_cluster` (lines 240–249):
`best_vehicle = None; max_capacity = 0;` keep a vehicle when
`max_per_vehicle - vehicle_loads[id] > max_capacity`. -/
def findMaxCapAux (loads : Int → Int) (maxPer : Int) :
    List Vehicle → Option Int × Int → Option Int × Int
  | [], acc => acc
  | v :: vs, acc =>
    let cap := maxPer - loads v.vehicleId
    if acc.2 < cap then findMaxCapAux loads maxPer vs (some v.vehicleId, cap)
    else findMaxCapAux loads maxPer vs acc

/-- The whole capacity scan, started from `(None, 0)`. -/
def findMaxCap (vehicles : List Vehicle) (loads : Int → Int) (maxPer : Int) :
    Option Int × Int :=
  findMaxCapAux loads maxPer vehicles (none, 0)

/-- `_split_and_assign_cluster` (lines 227–266).  The `while remaining:` loop picks the
vehicle with the most remaining capacity, breaks on
`if not best_vehicle or max_capacity == 0` (Python truthiness: an integer id `0` is
falsy, exactly like `None`), and otherwise assigns the chunk
`remaining[:max_capacity]` and continues on `remaining[max_capacity:]`. -/
def splitAndAssign (storeId : Int) (vehicles : List Vehicle) (maxPer : Int) :
    List Delivery → (Int → Int) → List Assignment → (Int → Int) × List Assignment
  | [], loads, assignments => (loads, assignments)
  | d :: rest, loads, assignments =>
    match hbc : findMaxCap vehicles loads maxPer with
    | (none, _) => (loads, assignments)
    | (some b, maxCap) =>
      if b = 0 ∨ maxCap = 0 then (loads, assignments)
      else
        splitAndAssign storeId vehicles maxPer ((d :: rest).drop maxCap.toNat)
          (updateLoad loads b (loads b + ((d :: rest).take maxCap.toNat).length))
          (assignments ++ [⟨b, storeId, (d :: rest).take maxCap.toNat⟩])
  termination_by l _ _ => l.length
  decreasing_by
    have hnn : ∀ (vs : List Vehicle) (acc : Option Int × Int), 0 ≤ acc.2 →
        0 ≤ (findMaxCapAux loads maxPer vs acc).2 := by
      intro vs
      induction vs with
      | nil => intro acc h; exact h
      | cons v vs ih =>
        intro acc h
        simp only [findMaxCapAux]
        split
        · exact ih _ (by omega)
        · exact ih _ h
    have h0 : 0 ≤ maxCap := by
      have h := hnn vehicles (none, 0) le_rfl
      rw [show findMaxCapAux loads maxPer vehicles (none, 0)
            = findMaxCap vehicles loads maxPer from rfl, hbc] at h
      exact h
    rename_i hcond
    simp only [List.length_drop, List.length_cons]
    omega

/-- The body of the `for store_id, store_deliveries in sorted_clusters:` loop
(lines 188–223).  `if best_vehicle:` is Python truthiness on an `Optional[int]`:
it selects the whole-cluster branch only when a vehicle was found *and* its id is
nonzero; both `None` and the id `0` fall through to the split branch. -/
def processCluster (vehicles : List Vehicle) (maxPer : Int)
    (st : (Int → Int) × List Assignment) (storeId : Int) (ds : List Delivery) :
    (Int → Int) × List Assignment :=
  match findBestVehicle vehicles st.1 ds.length maxPer with
  | some (b, _) =>
    if b = 0 then splitAndAssign storeId vehicles maxPer ds st.1 st.2
    else
      (updateLoad st.1 b (st.1 b + ds.length), st.2 ++ [⟨b, storeId, ds⟩])
  | none => splitAndAssign storeId vehicles maxPer ds st.1 st.2

/-- Keys of the Python dict built by `_cluster_deliveries_by_store`, in insertion
order of first appearance. -/
def insertKey (ks : List Int) (k : Int) : List Int :=
  if k ∈ ks then ks else ks ++ [k]

/-- The ordered key set of the `clusters` dict. -/
def storeKeys (ds : List Delivery) : List Int :=
  ds.foldl (fun ks d => insertKey ks d.storeId) []

/-- `_cluster_deliveries_by_store` (lines 156–167): group the pending deliveries by
`StoreID` into an insertion-ordered dict; each store's list keeps the input order
(the loop appends), so it is exactly the filter of the input by that store. -/
def clusterDeliveriesByStore (ds : List Delivery) : List (Int × List Delivery) :=
  (storeKeys ds).map (fun s => (s, ds.filter (fun d => d.storeId = s)))

/-- `sorted(clusters.items(), key=lambda x: len(x[1]), reverse=True)` (line 186):
a stable sort, descending by cluster size. -/
def sortClustersBySizeDesc (cs : List (Int × List Delivery)) : List (Int × List Delivery) :=
  cs.mergeSort (fun a b => b.2.length ≤ a.2.length)

/-- `_assign_clusters_to_vehicles` (lines 169–225), additionally returning the final
`vehicle_loads` dict (needed to state the capacity invariant). -/
def assignClustersToVehicles (clusters : List (Int × List Delivery))
    (vehicles : List Vehicle) (maxPer : Int) : (Int → Int) × List Assignment :=
  (sortClustersBySizeDesc clusters).foldl
    (fun st c => processCluster vehicles maxPer st c.1 c.2)
    (initLoads vehicles, [])

/-- The structured result dict of `optimize_routes`. -/
structure OptimizeResult where
  success : Bool
  message : String
  optimizedRoutes : List Assignment
  totalDeliveries : Nat
  estimatedTimeSaved : Nat
  deriving DecidableEq, Repr

/-- `optimize_routes` (lines 31–102), with the repository's two fetches abstracted
into the `pending` / `vehicles` arguments.  `_estimate_time_savings` is the flat
15-minutes-per-delivery heuristic; `_update_delivery_routes` issues one update per
assigned delivery (all updates are assumed to succeed, so the reported count is the
number of assigned deliveries). -/
def optimizeRoutes (pending : List Delivery) (vehicles : List Vehicle) (maxPer : Int) :
    OptimizeResult :=
  if pending.isEmpty then
    ⟨false, "No pending deliveries to optimize", [], 0, 0⟩
  else if vehicles.isEmpty then
    ⟨false, "No available vehicles for route optimization", [], 0, 0⟩
  else
    let assignments :=
      (assignClustersToVehicles (clusterDeliveriesByStore pending) vehicles maxPer).2
    let updated := (assignments.map (fun a => a.deliveries.length)).sum
    ⟨true,
      "Successfully optimized " ++ toString updated ++ " deliveries across "
        ++ toString assignments.length ++ " vehicles",
      assignments, updated, updated * 15⟩

/-- Total number of deliveries the produced `assignments` give to vehicle `id`. -/
def assignedLoad (assignments : List Assignment) (id : Int) : Int :=
  ((assignments.filter (fun a => a.vehicleId = id)).map
    (fun a => (a.deliveries.length : Int))).sum

/-- Modelled from the spec's words, for the refinement comparison of the
cluster-integrity claim: the first element of the list attaining the minimal
value of `f` (ties keep the earlier element). -/
def firstMinBy (f : Vehicle → Int) : List Vehicle → Option Vehicle
  | [] => none
  | v :: vs =>
    match firstMinBy f vs with
    | none => some v
    | some w => if f w < f v then some w else some v

/-- Modelled from the spec's words: "scan all vehicles and pick the one with the
lowest current load among those whose load + cluster size does not exceed the cap
... tie-break: first vehicle encountered at the minimum load". -/
def specBestVehicle (vehicles : List Vehicle) (loads : Int → Int) (size maxPer : Int) :
    Option Vehicle :=
  firstMinBy (fun v => loads v.vehicleId)
    (vehicles.filter (fun v => loads v.vehicleId + size ≤ maxPer))

/-- Proof-side helper: how the scan's running accumulator `(best, min_load)`
absorbs the best choice of the remaining vehicles (the loop updates on a strict
`<`, so ties keep the accumulator). -/
def bestMerge (loads : Int → Int) :
    Option (Int × Int) → Option Vehicle → Option (Int × Int)
  | acc, none => acc
  | none, some w => some (w.vehicleId, loads w.vehicleId)
  | some bm, some w =>
    if loads w.vehicleId < bm.2 then some (w.vehicleId, loads w.vehicleId)
    else some bm

/-! ## Delivery time predictor (`machine_learning/delivery_predictor.py`)

Rows of the pandas frames are embedded as records of optional cells
(`none` = a missing / `NaN` cell); the per-table column set is a record
of `Bool` flags, because `'X' in data.columns` branches on the whole
column, not on individual cells.  The scikit-learn estimators are
external floating-point code: a fitted pipeline (`scaler.transform`
followed by `model.predict`) is abstracted as a function
`FeatureRow → ℚ`, and the branch-deciding comparisons of the training
routine (`r2 > 0.1`, raise/no-raise) as Boolean outcomes, both supplied
in a `TrainEnv`. -/

/-- `str(x).split(':')[0]`: the characters before the first `':'` (the whole string
when there is none). -/
def takeUntilColon : List Char → List Char
  | [] => []
  | c :: cs => if c = ':' then [] else c :: takeUntilColon cs

/-- Decimal-digit run accumulator for `int()`. -/
def digitsToNat (acc : Nat) : List Char → Option Nat
  | [] => some acc
  | c :: cs =>
    if c.isDigit then digitsToNat (acc * 10 + (c.toNat - '0'.toNat)) cs else none

/-- Python `int(string)`: surrounding whitespace stripped, an optional single sign,
then a non-empty run of decimal digits; anything else raises `ValueError` (`none`
here).  (Python's underscore digit separators do not occur in `HH:MM:SS` data and
are not modelled.) -/
def parseIntChars (cs0 : List Char) : Option Int :=
  let cs1 := cs0.dropWhile Char.isWhitespace
  let cs := (cs1.reverse.dropWhile Char.isWhitespace).reverse
  match cs with
  | [] => none
  | '+' :: rest => if rest.isEmpty then none else (digitsToNat 0 rest).map Int.ofNat
  | '-' :: rest =>
    if rest.isEmpty then none else (digitsToNat 0 rest).map (fun n => -(n : Int))
  | c :: rest =>
    if c.isDigit then (digitsToNat 0 (c :: rest)).map Int.ofNat else none

/-- `int(str(x).split(':')[0])`: the leading token of a `HH:MM[:SS]` string as an
integer; `none` when Python's `int()` would raise `ValueError`. -/
def parseHour (s : String) : Option Int :=
  parseIntChars (takeUntilColon s.toList)

/-- One order-like row, as the predictor reads it.  Each field is one cell; `none`
stands for `NaN` (for the `to_numeric(errors='coerce')` columns it also stands for
a non-numeric cell, which that coercion turns into `NaN`).  `orderDateDow` is the
weekday of the parsed `Order_Date` (`pd.to_datetime(errors='coerce').dt.dayofweek`),
`none` when the date is missing or unparseable. -/
structure OrderRow where
  orderHour : Option ℚ
  orderTime : Option String
  dayOfWeek : Option ℚ
  orderDateDow : Option ℚ
  prepTime : Option ℚ
  storeAvgTime : Option ℚ
  storeAvgPrep : Option ℚ
  vehicleAvgTime : Option ℚ
  storeId : Option Int
  vehicleId : Option Int
  deliveryTime : Option ℚ
  deriving DecidableEq, Repr

/-- An input frame: which columns exist, plus the rows. -/
structure OrderTable where
  hasOrderHour : Bool
  hasOrderTime : Bool
  hasDayOfWeek : Bool
  hasOrderDate : Bool
  hasPrepTime : Bool
  hasStoreAvgTime : Bool
  hasStoreAvgPrep : Bool
  hasVehicleAvgTime : Bool
  hasStoreId : Bool
  hasVehicleId : Bool
  hasDeliveryTime : Bool
  rows : List OrderRow
  deriving DecidableEq, Repr

/-- One entry of `store_avg_dict`: `{'avg_time': _, 'total': _, 'avg_prep': _}`. -/
structure StoreStats where
  avgTime : ℚ
  total : Int
  avgPrep : ℚ
  deriving DecidableEq, Repr

/-- One entry of `vehicle_avg_dict`: `{'avg_time': _, 'total': _}`. -/
structure VehicleStats where
  avgTime : ℚ
  total : Int
  deriving DecidableEq, Repr

/-- Association-list lookup, modelling a Python `dict.get` keyed by ids. -/
def alookup (l : List (Int × α)) (k : Int) : Option α :=
  (l.find? (fun p => p.1 = k)).map Prod.snd

/-- One row of the frame produced by `prepare_features` (lines 52–140): the 16
feature columns, in creation order, after the final `fillna(0)` made every cell
numeric. -/
structure FeatureRow where
  order_hour : ℚ
  day_of_week : ℚ
  is_morning_rush : ℚ
  is_lunch_rush : ℚ
  is_dinner_rush : ℚ
  is_late_night : ℚ
  is_weekend : ℚ
  hour_squared : ℚ
  prep_time : ℚ
  store_avg_time : ℚ
  store_avg_prep : ℚ
  vehicle_avg_time : ℚ
  prep_hour_interaction : ℚ
  store_weekend_factor : ℚ
  vehicle_rush_factor : ℚ
  weekend_dinner : ℚ
  deriving DecidableEq, Repr

/-- `X.columns.tolist()`: the schema of the `prepare_features` output, in the order
the columns are created (lines 63–133).  This is what `train` stores as
`self.feature_names`. -/
def featureNames : List String :=
  ["order_hour", "day_of_week", "is_morning_rush", "is_lunch_rush", "is_dinner_rush",
   "is_late_night", "is_weekend", "hour_squared", "prep_time", "store_avg_time",
   "store_avg_prep", "vehicle_avg_time", "prep_hour_interaction",
   "store_weekend_factor", "vehicle_rush_factor", "weekend_dinner"]

/-- The mutable state of a `DeliveryTimePredictor` instance.  `model` is the fitted
regression pipeline (`scaler.transform` then `model.predict`, composed), abstract. -/
structure PredictorState where
  model : Option (FeatureRow → ℚ)
  featureNames : Option (List String)
  isTrained : Bool
  hourAverages : List (Int × ℚ)
  dayAverages : List (Int × ℚ)
  overallAverage : ℚ
  useSimple : Bool
  storeAvgDict : List (Int × StoreStats)
  vehicleAvgDict : List (Int × VehicleStats)

/-- The freshly constructed predictor (`__init__`, lines 32–47), assuming no saved
artifact exists at the model path (lines 49–50 then skip `load_model`). -/
def initialPredictor : PredictorState :=
  { model := none, featureNames := none, isTrained := false, hourAverages := [],
    dayAverages := [], overallAverage := 147, useSimple := false,
    storeAvgDict := [], vehicleAvgDict := [] }

/-- `b.astype(int)` on a boolean column entry. -/
def indQ (b : Bool) : ℚ := if b then 1 else 0

/-- The `order_hour` source (lines 63–70): the `Order_Hour` column if present
(cells copied as-is, `NaN` included), else the hour parsed from `Order_Time`
(a `NaN` cell defaults to 12, but an unparseable string makes `int()` raise —
the `Except.error` outcome), else the constant 12. -/
def featureOrderHour (tbl : OrderTable) (r : OrderRow) : Except String (Option ℚ) :=
  if tbl.hasOrderHour then .ok r.orderHour
  else if tbl.hasOrderTime then
    match r.orderTime with
    | none => .ok (some 12)
    | some s =>
      match parseHour s with
      | some h => .ok (some (h : ℚ))
      | none => .error "ValueError: invalid literal for int() with base 10"
  else .ok (some 12)

/-- The `day_of_week` source (lines 73–79): the `Day_Of_Week` column if present
(`NaN` cells survive), else the weekday of `Order_Date` with unparseable dates
coerced and filled with 2, else the constant 2. -/
def featureDayOfWeek (tbl : OrderTable) (r : OrderRow) : Option ℚ :=
  if tbl.hasDayOfWeek then r.dayOfWeek
  else if tbl.hasOrderDate then some (r.orderDateDow.getD 2)
  else some 2

/-- `store_avg_time` (lines 98–106): explicit column (coerced, `NaN → 147`), else a
lookup of `StoreID` in the non-empty `store_avg_dict` (missing key or `NaN` id
→ 147), else the constant 147. -/
def featureStoreAvgTime (st : PredictorState) (tbl : OrderTable) (r : OrderRow) : ℚ :=
  if tbl.hasStoreAvgTime then r.storeAvgTime.getD 147
  else if !st.storeAvgDict.isEmpty && tbl.hasStoreId then
    match r.storeId with
    | some sid =>
      match alookup st.storeAvgDict sid with
      | some stats => stats.avgTime
      | none => 147
    | none => 147
  else 147

/-- `store_avg_prep` (lines 108–115), default 15, analogous. -/
def featureStoreAvgPrep (st : PredictorState) (tbl : OrderTable) (r : OrderRow) : ℚ :=
  if tbl.hasStoreAvgPrep then r.storeAvgPrep.getD 15
  else if !st.storeAvgDict.isEmpty && tbl.hasStoreId then
    match r.storeId with
    | some sid =>
      match alookup st.storeAvgDict sid with
      | some stats => stats.avgPrep
      | none => 15
    | none => 15
  else 15

/-- `vehicle_avg_time` (lines 117–125), default 147, analogous. -/
def featureVehicleAvgTime (st : PredictorState) (tbl : OrderTable) (r : OrderRow) : ℚ :=
  if tbl.hasVehicleAvgTime then r.vehicleAvgTime.getD 147
  else if !st.vehicleAvgDict.isEmpty && tbl.hasVehicleId then
    match r.vehicleId with
    | some vid =>
      match alookup st.vehicleAvgDict vid with
      | some stats => stats.avgTime
      | none => 147
    | none => 147
  else 147

/-- One row of `prepare_features` (lines 52–140).  Comparisons against a `NaN`
hour/day are false (so the indicator columns are 0 there); arithmetic on a `NaN`
propagates it; the trailing `features.fillna(0)` plus per-column
`to_numeric(...).fillna(0)` (lines 136–138) turn every surviving `NaN` into 0. -/
def featureRowE (st : PredictorState) (tbl : OrderTable) (r : OrderRow) :
    Except String FeatureRow :=
  match featureOrderHour tbl r with
  | .error e => .error e
  | .ok hourOpt =>
  let dowOpt := featureDayOfWeek tbl r
  let morning := indQ (match hourOpt with
    | some h => decide (7 ≤ h ∧ h ≤ 9)
    | none => false)
  let lunch := indQ (match hourOpt with
    | some h => decide (11 ≤ h ∧ h ≤ 14)
    | none => false)
  let dinner := indQ (match hourOpt with
    | some h => decide (17 ≤ h ∧ h ≤ 20)
    | none => false)
  let lateNight := indQ (match hourOpt with
    | some h => decide (22 ≤ h ∨ h ≤ 5)
    | none => false)
  let weekend := indQ (match dowOpt with
    | some d => decide (5 ≤ d)
    | none => false)
  let hourSq := hourOpt.map (fun h => h ^ 2)
  let prep : ℚ := if tbl.hasPrepTime then r.prepTime.getD 15 else 15
  let storeAvgT := featureStoreAvgTime st tbl r
  let storeAvgP := featureStoreAvgPrep st tbl r
  let vehicleAvgT := featureVehicleAvgTime st tbl r
  let prepHour := hourOpt.map (fun h => prep * h / 100)
  .ok
    { order_hour := hourOpt.getD 0
      day_of_week := dowOpt.getD 0
      is_morning_rush := morning
      is_lunch_rush := lunch
      is_dinner_rush := dinner
      is_late_night := lateNight
      is_weekend := weekend
      hour_squared := hourSq.getD 0
      prep_time := prep
      store_avg_time := storeAvgT
      store_avg_prep := storeAvgP
      vehicle_avg_time := vehicleAvgT
      prep_hour_interaction := prepHour.getD 0
      store_weekend_factor := storeAvgT * weekend
      vehicle_rush_factor := vehicleAvgT * (morning + dinner)
      weekend_dinner := weekend * dinner }

/-- Column-wise traversal: pandas evaluates whole columns, raising on the first bad
cell; observably, the call errors iff some row errors, and otherwise yields one
output row per input row in order. -/
def mapExcept (f : α → Except String β) : List α → Except String (List β)
  | [] => .ok []
  | a :: as =>
    match f a with
    | .error e => .error e
    | .ok b =>
      match mapExcept f as with
      | .error e => .error e
      | .ok bs => .ok (b :: bs)

/-- `prepare_features` (lines 52–140).  `len(data) == 0` returns an empty frame,
which coincides with traversing no rows. -/
def prepareFeatures (st : PredictorState) (tbl : OrderTable) :
    Except String (List FeatureRow) :=
  mapExcept (featureRowE st tbl) tbl.rows

/-- Arithmetic mean of a list of cells.  pandas' `mean()` skips `NaN` and yields
`NaN` for an empty/all-`NaN` column; that `NaN` outcome is modelled as 0 here and
no theorem below depends on it. -/
def qmean (l : List ℚ) : ℚ :=
  if l.length = 0 then 0 else l.sum / l.length

/-- The training report dict.  Only the fields the claims mention are kept; the
`R²`/`MAE` entries are external floating-point scores and are not modelled. -/
structure TrainReport where
  samples : Nat
  modelType : String
  deriving DecidableEq, Repr

/-- Outcomes of the external scikit-learn steps inside `train`'s `try:` block
(lines 175–253): whether a step raises, how the two candidates' held-out `R²`
comparisons come out, and the fitted pipelines themselves. -/
structure TrainEnv where
  mlRaises : Bool
  ridgeDecent : Bool
  rfRaises : Bool
  rfBetter : Bool
  ridgeModel : FeatureRow → ℚ
  rfModel : FeatureRow → ℚ

/-- The `df['hour']` computation of lines 151–153: `NaN` defaults to 12 (the
`pd.notna` guard *is* present here), an unparseable string raises before the
`try:` block, so the whole call raises. -/
def trainRowHour (r : OrderRow) : Except String Int :=
  match r.orderTime with
  | none => .ok 12
  | some s =>
    match parseHour s with
    | some h => .ok h
    | none => .error "ValueError: invalid literal for int() with base 10"

/-- `df.groupby('hour')['Delivery_Time'].mean().to_dict()` (line 154) over
(hour, Delivery_Time-cell) pairs. -/
def groupMeans (pairs : List (Int × Option ℚ)) : List (Int × ℚ) :=
  (pairs.foldl (fun ks p => insertKey ks p.1) []).map
    (fun h => (h, qmean ((pairs.filter (fun p => p.1 = h)).filterMap Prod.snd)))

/-- `_get_simple_metrics` (lines 262–281).  It re-reads each row's hour as
`int(str(row.get('Order_Time', '12:00')).split(':')[0])` — *without* a `notna`
guard, so a `NaN` cell (`str(nan) = "nan"`) raises; and
`mean_absolute_error` raises on an empty frame.  The numeric scores themselves
are not modelled. -/
def simpleMetricsE (tbl : OrderTable) : Except String TrainReport :=
  match mapExcept (fun r =>
      match (if tbl.hasOrderTime then r.orderTime else some "12:00") with
      | none => Except.error "ValueError: invalid literal for int() with base 10"
      | some s =>
        match parseHour s with
        | some h => Except.ok h
        | none => Except.error "ValueError: invalid literal for int() with base 10")
      tbl.rows with
  | .error e => .error e
  | .ok _ =>
    if tbl.rows.isEmpty then
      .error "ValueError: Found array with 0 sample(s)"
    else .ok { samples := tbl.rows.length, modelType := "Simple Time-Based" }

/-- Committing the simple fallback: `self.use_simple_model = True;
self.is_trained = True; return self._get_simple_metrics(df)` (lines 166–169 and
256–260).  When `_get_simple_metrics` itself raises, the Python call does not
return (though the object is left trained); the error outcome models exactly the
non-returning case. -/
def commitSimple (st : PredictorState) (tbl : OrderTable) :
    Except String (PredictorState × TrainReport) :=
  match simpleMetricsE tbl with
  | .error e => .error e
  | .ok rep => .ok ({ st with useSimple := true, isTrained := true }, rep)

/-- `train` (lines 142–260).  Before the `try:` block: `df['Order_Time']` /
`df['Delivery_Time']` raise `KeyError` when the column is missing, the hour parse
raises on an unparseable time, and the fallback averages are installed.  Inside the
`try:`: empty features commit the simple model; any raising step is caught and
commits the simple model; `ridge_test_r2 > 0.1` commits Ridge; else
`rf_test_r2 > ridge_test_r2 and rf_test_r2 > 0` commits Random Forest; else the
deliberate `raise ValueError` is caught and commits the simple model. -/
def train (st : PredictorState) (tbl : OrderTable) (env : TrainEnv) :
    Except String (PredictorState × TrainReport) :=
  if !tbl.hasOrderTime then .error "KeyError: Order_Time"
  else
    match mapExcept trainRowHour tbl.rows with
    | .error e => .error e
    | .ok hrs =>
      if !tbl.hasDeliveryTime then .error "KeyError: Delivery_Time"
      else
        let st1 := { st with
          hourAverages := groupMeans (hrs.zip (tbl.rows.map OrderRow.deliveryTime)),
          overallAverage := qmean (tbl.rows.filterMap OrderRow.deliveryTime) }
        match prepareFeatures st1 tbl with
        | .error _ => commitSimple st1 tbl
        | .ok X =>
          if X.isEmpty then commitSimple st1 tbl
          else
            let st2 := { st1 with featureNames := some featureNames }
            if env.mlRaises then commitSimple st2 tbl
            else if env.ridgeDecent then
              .ok
                ({ st2 with
                    model := some env.ridgeModel
                    useSimple := false
                    isTrained := true },
                 { samples := tbl.rows.length, modelType := "Ridge Regression" })
            else if env.rfRaises then commitSimple st2 tbl
            else if env.rfBetter then
              .ok
                ({ st2 with
                    model := some env.rfModel
                    useSimple := false
                    isTrained := true },
                 { samples := tbl.rows.length, modelType := "Random Forest" })
            else commitSimple st2 tbl

/-- `self.hour_averages.get(hour, self.overall_average)` with a (possibly `NaN`)
numeric key: Python's numeric equality finds an integer key from an equal float,
and a `NaN` key matches nothing. -/
def simpleLookup (avgs : List (Int × ℚ)) (overall : ℚ) (h : Option ℚ) : ℚ :=
  match h with
  | none => overall
  | some q =>
    match avgs.find? (fun p => (p.1 : ℚ) = q) with
    | some p => p.2
    | none => overall

/-- One row of `_predict_simple` (lines 302–318): hour from the `Order_Hour`
column if present, else parsed from `Order_Time` (no `notna` guard here — a `NaN`
or unparseable cell raises), else 12; then the per-hour average with the overall
average as default.  No floor is applied on this path. -/
def predictSimpleRowE (st : PredictorState) (tbl : OrderTable) (r : OrderRow) :
    Except String ℚ :=
  if tbl.hasOrderHour then
    .ok (simpleLookup st.hourAverages st.overallAverage r.orderHour)
  else if tbl.hasOrderTime then
    match r.orderTime with
    | none => .error "ValueError: invalid literal for int() with base 10"
    | some s =>
      match parseHour s with
      | some h => .ok (simpleLookup st.hourAverages st.overallAverage (some (h : ℚ)))
      | none => .error "ValueError: invalid literal for int() with base 10"
  else .ok (simpleLookup st.hourAverages st.overallAverage (some 12))

/-- `_predict_simple` (lines 302–318). -/
def predictSimple (st : PredictorState) (tbl : OrderTable) : Except String (List ℚ) :=
  mapExcept (predictSimpleRowE st tbl) tbl.rows

/-- `predict` (lines 283–300): hard precondition `is_trained`; the simple path
returns the raw averages; the regression path builds features, runs the fitted
pipeline and clamps each prediction with `np.maximum(predictions, 10)`.  The
`len(X) == 0` early return (which skips the clamp) fires exactly for an empty
input frame, since `prepare_features` yields one row per input row. -/
def predict (st : PredictorState) (tbl : OrderTable) : Except String (List ℚ) :=
  if !st.isTrained then .error "Model not trained"
  else if st.useSimple then predictSimple st tbl
  else
    match prepareFeatures st tbl with
    | .error e => .error e
    | .ok X =>
      if X.isEmpty then .ok (List.replicate tbl.rows.length st.overallAverage)
      else
        match st.model with
        | some f => .ok (X.map (fun x => max (f x) 10))
        | none => .error "AttributeError: NoneType object has no attribute predict"

/-- The `model_data` bundle written by `save_model` (lines 327–338); the
`trained_date` timestamp is wall-clock and not modelled. -/
structure SavedBundle where
  model : Option (FeatureRow → ℚ)
  featureNames : Option (List String)
  hourAverages : List (Int × ℚ)
  dayAverages : List (Int × ℚ)
  overallAverage : ℚ
  useSimple : Bool
  storeAvgDict : List (Int × StoreStats)
  vehicleAvgDict : List (Int × VehicleStats)

/-- `save_model` (lines 320–342): raises `ValueError("Cannot save untrained
model")` before anything touches the filesystem; otherwise serialises the full
state bundle.  The returned bundle *is* the written artifact — an error outcome
writes nothing. -/
def saveModel (st : PredictorState) : Except String SavedBundle :=
  if !st.isTrained then .error "Cannot save untrained model"
  else
    .ok { model := st.model, featureNames := st.featureNames,
          hourAverages := st.hourAverages, dayAverages := st.dayAverages,
          overallAverage := st.overallAverage, useSimple := st.useSimple,
          storeAvgDict := st.storeAvgDict, vehicleAvgDict := st.vehicleAvgDict }

/-- One row returned by the trainer's cleaned-data SQL query (lines 398–419).
The `WHERE` clause already guarantees `Delivery_Time` non-null in `[20, 400]` and
`Pickup_Time` / `Order_Time` non-null, so those fields are total; the
`DATEDIFF`-minute values are carried as numbers and `Order_Date`'s weekday as
`orderDateDow`. -/
structure DbRow where
  orderId : Int
  orderTime : String
  orderDateDow : Option ℚ
  vehicleId : Option Int
  storeId : Option Int
  deliveryTime : ℚ
  pickupMin : ℚ
  orderMin : ℚ
  orderHour : ℚ
  dayOfWeek : ℚ
  deriving DecidableEq, Repr

/-- One row of the per-store aggregate query (lines 459–470). -/
structure StoreStatRow where
  storeId : Int
  avgDeliveryTime : ℚ
  totalDeliveries : Int
  deriving DecidableEq, Repr

/-- One row of the per-vehicle aggregate query (lines 474–485). -/
structure VehicleStatRow where
  vehicleId : Int
  avgDeliveryTime : ℚ
  totalDeliveries : Int
  deriving DecidableEq, Repr

/-- `Prep_Time_Minutes` (lines 437–444): `pickup − order`, wrapping a negative
difference past midnight by adding 1440. -/
def prepMinutes (r : DbRow) : ℚ :=
  let p := r.pickupMin - r.orderMin
  if 0 ≤ p then p else p + 1440

/-- `store_prep_avg.get(store_id, 15)` where `store_prep_avg` is the mean
`Prep_Time_Minutes` per `StoreID` over the *filtered* training frame (line 491). -/
def storePrepAvg (td : List DbRow) (sid : Int) : ℚ :=
  let ps := (td.filter (fun r => r.storeId = some sid)).map prepMinutes
  if ps.isEmpty then 15 else qmean ps

/-- `train_model_from_database` (lines 389–533), with the repository's three query
results supplied as arguments.  `.ok none` is the `(None, None)` failure signal of
line 427; note the `len(rows) < 10` refusal is checked on the *fetched* rows,
before the prep-time `[0, 120]` filter of lines 447–450 is applied. -/
def trainModelFromDatabase (rows : List DbRow) (storeStats : List StoreStatRow)
    (vehicleStats : List VehicleStatRow) (env : TrainEnv) :
    Except String (Option (PredictorState × TrainReport)) :=
  if rows.length < 10 then .ok none
  else
    let td := rows.filter (fun r => decide (0 ≤ prepMinutes r ∧ prepMinutes r ≤ 120))
    let storeAvgDict : List (Int × StoreStats) := storeStats.map (fun s =>
      (s.storeId,
       { avgTime := s.avgDeliveryTime, total := s.totalDeliveries,
         avgPrep := storePrepAvg td s.storeId }))
    let vehicleAvgDict : List (Int × VehicleStats) := vehicleStats.map (fun s =>
      (s.vehicleId, { avgTime := s.avgDeliveryTime, total := s.totalDeliveries }))
    let tdMean := qmean (td.map DbRow.deliveryTime)
    let orows : List OrderRow := td.map (fun r =>
      { orderHour := some r.orderHour
        orderTime := some r.orderTime
        dayOfWeek := some r.dayOfWeek
        orderDateDow := r.orderDateDow
        prepTime := some (prepMinutes r)
        storeAvgTime := some (match r.storeId with
          | some sid =>
            match alookup storeAvgDict sid with
            | some stats => stats.avgTime
            | none => tdMean
          | none => tdMean)
        storeAvgPrep := some (match r.storeId with
          | some sid =>
            match alookup storeAvgDict sid with
            | some stats => stats.avgPrep
            | none => 15
          | none => 15)
        vehicleAvgTime := some (match r.vehicleId with
          | some vid =>
            match alookup vehicleAvgDict vid with
            | some stats => stats.avgTime
            | none => tdMean
          | none => tdMean)
        storeId := r.storeId
        vehicleId := r.vehicleId
        deliveryTime := some r.deliveryTime })
    let tbl : OrderTable :=
      { hasOrderHour := true, hasOrderTime := true, hasDayOfWeek := true,
        hasOrderDate := true, hasPrepTime := true, hasStoreAvgTime := true,
        hasStoreAvgPrep := true, hasVehicleAvgTime := true, hasStoreId := true,
        hasVehicleId := true, hasDeliveryTime := true, rows := orows }
    let st0 := { initialPredictor with
      storeAvgDict := storeAvgDict, vehicleAvgDict := vehicleAvgDict }
    match train st0 tbl env with
    | .error e => .error e
    | .ok (st', rep) =>
      match saveModel st' with
      | .error e => .error e
      | .ok _ => .ok (some (st', rep))

/-- The value of an `.ok` outcome (used to express that a successful traversal is a
per-row map). -/
def okValue (e : Except String α) (dflt : α) : α :=
  match e with
  | .ok a => a
  | .error _ => dflt

/-! ### Concrete fixtures for witnesses and counterexamples -/

/-- External ML outcomes where nothing raises but no candidate is useful
(Ridge `R² ≤ 0.1`, Random Forest no better): the training run must fall back. -/
def envNoUsefulFit : TrainEnv :=
  { mlRaises := false, ridgeDecent := false, rfRaises := false, rfBetter := false,
    ridgeModel := fun _ => 0, rfModel := fun _ => 0 }

/-- External ML outcomes where Ridge clears the `R² > 0.1` bar; the fitted
pipeline is abstracted as a constant. -/
def envRidgeFit : TrainEnv :=
  { mlRaises := false, ridgeDecent := true, rfRaises := false, rfBetter := false,
    ridgeModel := fun _ => 100, rfModel := fun _ => 0 }

/-- A training row at hour 9 whose delivery took 8 minutes (below the 10-minute
prediction floor). -/
def exSimpleRow : OrderRow :=
  { orderHour := some 9, orderTime := some "9", dayOfWeek := none,
    orderDateDow := none, prepTime := none, storeAvgTime := none,
    storeAvgPrep := none, vehicleAvgTime := none, storeId := none,
    vehicleId := none, deliveryTime := some 8 }

/-- A one-row training table whose hour-9 average delivery time is 8 minutes. -/
def exSimpleTbl : OrderTable :=
  { hasOrderHour := true, hasOrderTime := true, hasDayOfWeek := false,
    hasOrderDate := false, hasPrepTime := false, hasStoreAvgTime := false,
    hasStoreAvgPrep := false, hasVehicleAvgTime := false, hasStoreId := false,
    hasVehicleId := false, hasDeliveryTime := true, rows := [exSimpleRow] }

/-- The predictor state `train` commits on `exSimpleTbl` with `envNoUsefulFit`. -/
def exSimpleState : PredictorState :=
  { model := none, featureNames := some featureNames, isTrained := true,
    hourAverages := [(9, 8)], dayAverages := [], overallAverage := 8,
    useSimple := true, storeAvgDict := [], vehicleAvgDict := [] }

/-- A row with every cell missing. -/
def blankOrderRow : OrderRow :=
  { orderHour := none, orderTime := none, dayOfWeek := none, orderDateDow := none,
    prepTime := none, storeAvgTime := none, storeAvgPrep := none,
    vehicleAvgTime := none, storeId := none, vehicleId := none,
    deliveryTime := none }

/-- A one-row frame with no optional columns at all. -/
def exPredictTbl : OrderTable :=
  { hasOrderHour := false, hasOrderTime := false, hasDayOfWeek := false,
    hasOrderDate := false, hasPrepTime := false, hasStoreAvgTime := false,
    hasStoreAvgPrep := false, hasVehicleAvgTime := false, hasStoreId := false,
    hasVehicleId := false, hasDeliveryTime := false, rows := [blankOrderRow] }

/-- A one-row frame whose columns are all present but whose cells are all missing
(`Order_Hour` absent, so the hour falls back through `Order_Time`). -/
def exDefaultsTbl : OrderTable :=
  { hasOrderHour := false, hasOrderTime := true, hasDayOfWeek := false,
    hasOrderDate := true, hasPrepTime := true, hasStoreAvgTime := true,
    hasStoreAvgPrep := true, hasVehicleAvgTime := true, hasStoreId := true,
    hasVehicleId := true, hasDeliveryTime := true, rows := [blankOrderRow] }

/-- The feature row of an all-missing order row: hour 12 (which lands in the lunch
window), day-of-week 2, prep 15, store/vehicle averages 147/15/147, and the
interactions that follow. -/
def defaultFeatureRow : FeatureRow :=
  { order_hour := 12, day_of_week := 2, is_morning_rush := 0, is_lunch_rush := 1,
    is_dinner_rush := 0, is_late_night := 0, is_weekend := 0, hour_squared := 144,
    prep_time := 15, store_avg_time := 147, store_avg_prep := 15,
    vehicle_avg_time := 147, prep_hour_interaction := 9 / 5,
    store_weekend_factor := 0, vehicle_rush_factor := 0, weekend_dinner := 0 }

/-- A trained regression-mode predictor whose abstract fitted pipeline predicts 0
(so that only the 10-minute floor can explain a positive output). -/
def exRegPredictor : PredictorState :=
  { model := some (fun _ => 0), featureNames := some featureNames,
    isTrained := true, hourAverages := [], dayAverages := [],
    overallAverage := 147, useSimple := false, storeAvgDict := [],
    vehicleAvgDict := [] }

/-- A row with `Order_Time` set to the unparseable string `"noon"`. -/
def exBadTimeRow : OrderRow :=
  { blankOrderRow with orderTime := some "noon" }

/-- A one-row frame whose only column is the unparseable `Order_Time`. -/
def exBadTimeTbl : OrderTable :=
  { hasOrderHour := false, hasOrderTime := true, hasDayOfWeek := false,
    hasOrderDate := false, hasPrepTime := false, hasStoreAvgTime := false,
    hasStoreAvgPrep := false, hasVehicleAvgTime := false, hasStoreId := false,
    hasVehicleId := false, hasDeliveryTime := false, rows := [exBadTimeRow] }

/-- A fetched trainer row passing the SQL filters, with a 30-minute prep time. -/
def exDbRowGood (oid : Int) : DbRow :=
  { orderId := oid, orderTime := "10", orderDateDow := some 2, vehicleId := some 1,
    storeId := some 1, deliveryTime := 100, pickupMin := 30, orderMin := 0,
    orderHour := 10, dayOfWeek := 3 }

/-- A fetched trainer row whose derived prep time (500 minutes) fails the
`[0, 120]` quality filter. -/
def exDbRowBadPrep : DbRow :=
  { exDbRowGood 9 with pickupMin := 500 }

/-- Ten rows as returned by the trainer's SQL query, of which only nine survive
the prep-time filter. -/
def exDbRows : List DbRow :=
  [exDbRowGood 0, exDbRowGood 1, exDbRowGood 2, exDbRowGood 3, exDbRowGood 4,
   exDbRowGood 5, exDbRowGood 6, exDbRowGood 7, exDbRowGood 8, exDbRowBadPrep]

/-! ## Lemmas about the greedy vehicle scans -/

theorem firstMinBy_mem (f : Vehicle → Int) (l : List Vehicle) (w : Vehicle)
    (h : firstMinBy f l = some w) : w ∈ l := by
  induction l generalizing w with
  | nil => simp [firstMinBy] at h
  | cons v vs ih =>
    rcases hv : firstMinBy f vs with _ | w'
    · simp only [firstMinBy, hv, Option.some.injEq] at h
      subst h
      exact List.mem_cons_self _ _
    · simp only [firstMinBy, hv] at h
      by_cases hf : f w' < f v
      · rw [if_pos hf, Option.some.injEq] at h
        subst h
        exact List.mem_cons_of_mem _ (ih _ hv)
      · rw [if_neg hf, Option.some.injEq] at h
        subst h
        exact List.mem_cons_self _ _

theorem firstMinBy_isSome (f : Vehicle → Int) (l : List Vehicle) (hne : l ≠ []) :
    ∃ w, firstMinBy f l = some w := by
  cases l with
  | nil => exact absurd rfl hne
  | cons v vs =>
    rcases hv : firstMinBy f vs with _ | w'
    · exact ⟨v, by simp [firstMinBy, hv]⟩
    · by_cases hf : f w' < f v
      · exact ⟨w', by simp only [firstMinBy, hv]; rw [if_pos hf]⟩
      · exact ⟨v, by simp only [firstMinBy, hv]; rw [if_neg hf]⟩

/-- The loop of lines 190–201, started from any accumulator, computes the
spec-worded "first feasible vehicle at minimal load" of the remaining vehicles,
merged with the incoming accumulator via the loop's strict `<`. -/
theorem findBestVehicleAux_eq (loads : Int → Int) (size maxPer : Int)
    (vs : List Vehicle) :
    ∀ (acc : Option (Int × Int)),
      findBestVehicleAux loads size maxPer vs acc =
        bestMerge loads acc (specBestVehicle vs loads size maxPer) := by
  induction vs with
  | nil =>
    intro acc
    rcases acc with _ | bm <;> rfl
  | cons v vs ih =>
    intro acc
    by_cases hfeas : loads v.vehicleId + (size : Int) ≤ maxPer
    · have hfilter : specBestVehicle (v :: vs) loads size maxPer =
          match specBestVehicle vs loads size maxPer with
          | none => some v
          | some w =>
            if loads w.vehicleId < loads v.vehicleId then some w else some v := by
        simp only [specBestVehicle, List.filter_cons, decide_eq_true hfeas,
          if_true, firstMinBy]
      rcases acc with _ | ⟨b, m⟩
      · simp only [findBestVehicleAux, if_pos hfeas, ih, hfilter]
        rcases hs : specBestVehicle vs loads size maxPer with _ | w
        · rfl
        · by_cases hw : loads w.vehicleId < loads v.vehicleId
          · simp only [if_pos hw, bestMerge]
          · simp only [if_neg hw, bestMerge]
      · simp only [findBestVehicleAux, if_pos hfeas, ih, hfilter]
        rcases hs : specBestVehicle vs loads size maxPer with _ | w
        · simp only [bestMerge]
        · by_cases hw : loads w.vehicleId < loads v.vehicleId
          · simp only [if_pos hw, bestMerge]
            try split_ifs <;> first | rfl | omega
          · simp only [if_neg hw, bestMerge]
            try split_ifs <;> first | rfl | omega
    · have hfilter : specBestVehicle (v :: vs) loads size maxPer =
          specBestVehicle vs loads size maxPer := by
        simp only [specBestVehicle, List.filter_cons, decide_eq_false hfeas,
          Bool.false_eq_true, if_false]
      simp only [findBestVehicleAux, if_neg hfeas, ih, hfilter]

/-- The scan as called by the loop body equals the spec's choice. -/
theorem findBestVehicle_eq_spec (vehicles : List Vehicle) (loads : Int → Int)
    (size maxPer : Int) :
    findBestVehicle vehicles loads size maxPer =
      (specBestVehicle vehicles loads size maxPer).map
        (fun w => (w.vehicleId, loads w.vehicleId)) := by
  rw [findBestVehicle, findBestVehicleAux_eq]
  rcases specBestVehicle vehicles loads size maxPer with _ | w <;> simp [bestMerge]

/-- Soundness of the spec-side choice: it is a vehicle of the list, and it is
feasible for the cluster. -/
theorem specBestVehicle_sound (vehicles : List Vehicle) (loads : Int → Int)
    (size maxPer : Int) (w : Vehicle)
    (h : specBestVehicle vehicles loads size maxPer = some w) :
    w ∈ vehicles ∧ loads w.vehicleId + size ≤ maxPer := by
  have hmem := firstMinBy_mem _ _ _ h
  rw [List.mem_filter] at hmem
  exact ⟨hmem.1, by simpa using hmem.2⟩

/-- Existence of the spec-side choice whenever some vehicle is feasible. -/
theorem specBestVehicle_isSome (vehicles : List Vehicle) (loads : Int → Int)
    (size maxPer : Int) (hfeas : ∃ v ∈ vehicles, loads v.vehicleId + size ≤ maxPer) :
    ∃ w, specBestVehicle vehicles loads size maxPer = some w := by
  rcases hfeas with ⟨v, hv, hle⟩
  apply firstMinBy_isSome
  intro hnil
  have : v ∈ List.filter (fun v => decide (loads v.vehicleId + size ≤ maxPer)) vehicles := by
    rw [List.mem_filter]
    exact ⟨hv, by simpa using hle⟩
  rw [hnil] at this
  exact List.not_mem_nil _ this

/-- Invariant of the capacity scan: the running maximum stays nonnegative, and
whenever a vehicle has been selected it records that vehicle's exact remaining
capacity, which is positive. -/
theorem findMaxCapAux_inv (loads : Int → Int) (maxPer : Int) (vs : List Vehicle) :
    ∀ (acc : Option Int × Int), 0 ≤ acc.2 →
      (∀ b, acc.1 = some b → acc.2 = maxPer - loads b ∧ 0 < acc.2) →
      0 ≤ (findMaxCapAux loads maxPer vs acc).2 ∧
        ∀ b, (findMaxCapAux loads maxPer vs acc).1 = some b →
          (findMaxCapAux loads maxPer vs acc).2 = maxPer - loads b ∧
            0 < (findMaxCapAux loads maxPer vs acc).2 := by
  induction vs with
  | nil => intro acc h1 h2; exact ⟨h1, h2⟩
  | cons v vs ih =>
    intro acc h1 h2
    simp only [findMaxCapAux]
    by_cases hc : acc.2 < maxPer - loads v.vehicleId
    · rw [if_pos hc]
      refine ih _ (by simp; omega) ?_
      intro b hb
      simp only [Option.some.injEq] at hb
      subst hb
      constructor
      · rfl
      · simp
        omega
    · rw [if_neg hc]
      exact ih _ h1 h2

/-- Soundness of `findMaxCap`: a selected vehicle's recorded capacity is its exact
remaining capacity and is positive. -/
theorem findMaxCap_sound (vehicles : List Vehicle) (loads : Int → Int)
    (maxPer : Int) (b maxCap : Int)
    (h : findMaxCap vehicles loads maxPer = (some b, maxCap)) :
    maxCap = maxPer - loads b ∧ 0 < maxCap := by
  have := findMaxCapAux_inv loads maxPer vehicles (none, 0) (by simp) (by simp)
  rw [findMaxCap] at h
  rw [h] at this
  exact this.2 b rfl

/-! ## Lemmas about the assignment loops -/

theorem assignedLoad_nil (id : Int) : assignedLoad [] id = 0 := rfl

theorem assignedLoad_append (a b : List Assignment) (id : Int) :
    assignedLoad (a ++ b) id = assignedLoad a id + assignedLoad b id := by
  simp [assignedLoad, List.filter_append]

theorem assignedLoad_single (v s : Int) (ds : List Delivery) (id : Int) :
    assignedLoad [⟨v, s, ds⟩] id = if v = id then (ds.length : Int) else 0 := by
  by_cases h : v = id <;> simp [assignedLoad, h]

/-- Step equation: the `while` loop stops when no vehicle was selected or the
selected one is falsy/full. -/
theorem splitAndAssign_stop (storeId : Int) (vehicles : List Vehicle) (maxPer : Int)
    (d : Delivery) (rest : List Delivery) (loads : Int → Int) (asg : List Assignment)
    (h : ∀ b maxCap, findMaxCap vehicles loads maxPer = (some b, maxCap) →
      b = 0 ∨ maxCap = 0) :
    splitAndAssign storeId vehicles maxPer (d :: rest) loads asg = (loads, asg) := by
  simp only [splitAndAssign]
  split
  · rfl
  · rename_i b maxCap hbc
    rw [if_pos (h b maxCap hbc)]

/-- Step equation: one iteration of the `while` loop assigns the chunk and
continues. -/
theorem splitAndAssign_go (storeId : Int) (vehicles : List Vehicle) (maxPer : Int)
    (d : Delivery) (rest : List Delivery) (loads : Int → Int) (asg : List Assignment)
    (b maxCap : Int)
    (hbc : findMaxCap vehicles loads maxPer = (some b, maxCap))
    (hcond : ¬(b = 0 ∨ maxCap = 0)) :
    splitAndAssign storeId vehicles maxPer (d :: rest) loads asg =
      splitAndAssign storeId vehicles maxPer (List.drop maxCap.toNat (d :: rest))
        (updateLoad loads b
          (loads b + ((List.take maxCap.toNat (d :: rest)).length : Int)))
        (asg ++ [⟨b, storeId, List.take maxCap.toNat (d :: rest)⟩]) := by
  simp only [splitAndAssign]
  split
  · rename_i snd h2
    rw [hbc] at h2
    simp at h2
  · rename_i b2 maxCap2 h2
    rw [hbc] at h2
    simp only [Prod.mk.injEq, Option.some.injEq] at h2
    rcases h2 with ⟨h3, h4⟩
    subst h3
    subst h4
    rw [if_neg hcond]

/-- After the split loop, every load is either within the cap or untouched. -/
theorem splitAndAssign_loads_bound (storeId : Int) (vehicles : List Vehicle)
    (maxPer : Int) (rem : List Delivery) (loads : Int → Int)
    (asg : List Assignment) (id : Int) :
    (splitAndAssign storeId vehicles maxPer rem loads asg).1 id ≤ maxPer ∨
      (splitAndAssign storeId vehicles maxPer rem loads asg).1 id = loads id := by
  induction rem, loads, asg using splitAndAssign.induct storeId vehicles maxPer with
  | case1 loads asg =>
    right
    simp only [splitAndAssign]
  | case2 d rest loads asg snd h =>
    right
    rw [splitAndAssign_stop]
    intro b maxCap hb
    rw [h] at hb
    simp at hb
  | case3 d rest loads asg b maxCap h hcond =>
    right
    rw [splitAndAssign_stop]
    intro b2 maxCap2 hb
    rw [h] at hb
    simp only [Prod.mk.injEq, Option.some.injEq] at hb
    rcases hb with ⟨h3, h4⟩
    subst h3
    subst h4
    exact hcond
  | case4 d rest loads asg b maxCap h hcond ih =>
    rw [splitAndAssign_go storeId vehicles maxPer d rest loads asg b maxCap h hcond]
    rcases ih with hle | heq
    · exact Or.inl hle
    · rw [heq]
      simp only [updateLoad]
      by_cases hid : id = b
      · left
        rw [if_pos hid]
        rcases findMaxCap_sound vehicles loads maxPer b maxCap h with ⟨hcap, hpos⟩
        have hlen : ((List.take maxCap.toNat (d :: rest)).length : Int) ≤ maxCap := by
          have := List.length_take_le maxCap.toNat (d :: rest)
          omega
        omega
      · right
        rw [if_neg hid]

/-- The split loop's load counters track exactly the deliveries it appends to the
assignment list. -/
theorem splitAndAssign_corr (storeId : Int) (vehicles : List Vehicle)
    (maxPer : Int) (rem : List Delivery) (loads : Int → Int)
    (asg : List Assignment) (id : Int) :
    (splitAndAssign storeId vehicles maxPer rem loads asg).1 id
        + assignedLoad asg id =
      loads id
        + assignedLoad (splitAndAssign storeId vehicles maxPer rem loads asg).2 id := by
  induction rem, loads, asg using splitAndAssign.induct storeId vehicles maxPer with
  | case1 loads asg => simp only [splitAndAssign]
  | case2 d rest loads asg snd h =>
    rw [splitAndAssign_stop]
    intro b maxCap hb
    rw [h] at hb
    simp at hb
  | case3 d rest loads asg b maxCap h hcond =>
    rw [splitAndAssign_stop]
    intro b2 maxCap2 hb
    rw [h] at hb
    simp only [Prod.mk.injEq, Option.some.injEq] at hb
    rcases hb with ⟨h3, h4⟩
    subst h3
    subst h4
    exact hcond
  | case4 d rest loads asg b maxCap h hcond ih =>
    rw [splitAndAssign_go storeId vehicles maxPer d rest loads asg b maxCap h hcond]
    rw [assignedLoad_append, assignedLoad_single] at ih
    simp only [updateLoad] at ih
    by_cases hid : id = b
    · simp only [if_pos hid, if_pos hid.symm] at ih
      have hl : loads id = loads b := by rw [hid]
      omega
    · simp only [if_neg hid, if_neg (fun hh => hid (Eq.symm hh))] at ih
      omega

/-- The split loop assigns (counting any property) no more deliveries than it was
given on top of what was already assigned. -/
theorem splitAndAssign_countP (storeId : Int) (vehicles : List Vehicle)
    (maxPer : Int) (rem : List Delivery) (loads : Int → Int)
    (asg : List Assignment) (p : Delivery → Bool) :
    ((splitAndAssign storeId vehicles maxPer rem loads asg).2.flatMap
        Assignment.deliveries).countP p ≤
      (asg.flatMap Assignment.deliveries).countP p + rem.countP p := by
  induction rem, loads, asg using splitAndAssign.induct storeId vehicles maxPer with
  | case1 loads asg => simp [splitAndAssign]
  | case2 d rest loads asg snd h =>
    rw [splitAndAssign_stop]
    · show (asg.flatMap Assignment.deliveries).countP p ≤
        (asg.flatMap Assignment.deliveries).countP p + (d :: rest).countP p
      omega
    · intro b maxCap hb
      rw [h] at hb
      simp at hb
  | case3 d rest loads asg b maxCap h hcond =>
    rw [splitAndAssign_stop]
    · show (asg.flatMap Assignment.deliveries).countP p ≤
        (asg.flatMap Assignment.deliveries).countP p + (d :: rest).countP p
      omega
    · intro b2 maxCap2 hb
      rw [h] at hb
      simp only [Prod.mk.injEq, Option.some.injEq] at hb
      rcases hb with ⟨h3, h4⟩
      subst h3
      subst h4
      exact hcond
  | case4 d rest loads asg b maxCap h hcond ih =>
    rw [splitAndAssign_go storeId vehicles maxPer d rest loads asg b maxCap h hcond]
    rw [List.flatMap_append, List.countP_append] at ih
    have hsplit : (List.take maxCap.toNat (d :: rest)).countP p
        + (List.drop maxCap.toNat (d :: rest)).countP p = (d :: rest).countP p := by
      rw [← List.countP_append, List.take_append_drop]
    simp only [List.flatMap_cons, List.flatMap_nil, List.append_nil] at ih
    omega

/-- Per-cluster step: every load is either within the cap or untouched.  (In the
whole-cluster branch this rests on the feasibility of the scanned-out vehicle.) -/
theorem processCluster_loads_bound (vehicles : List Vehicle) (maxPer : Int)
    (st : (Int → Int) × List Assignment) (storeId : Int) (ds : List Delivery)
    (id : Int) :
    (processCluster vehicles maxPer st storeId ds).1 id ≤ maxPer ∨
      (processCluster vehicles maxPer st storeId ds).1 id = st.1 id := by
  rcases hb : findBestVehicle vehicles st.1 ds.length maxPer with _ | ⟨b, m⟩
  · simp only [processCluster, hb]
    exact splitAndAssign_loads_bound _ _ _ _ _ _ _
  · simp only [processCluster, hb]
    by_cases hz : b = 0
    · rw [if_pos hz]
      exact splitAndAssign_loads_bound _ _ _ _ _ _ _
    · rw [if_neg hz]
      rw [findBestVehicle_eq_spec] at hb
      rcases Option.map_eq_some'.mp hb with ⟨w, hw, hwb⟩
      rcases specBestVehicle_sound _ _ _ _ _ hw with ⟨-, hfeas⟩
      simp only [Prod.mk.injEq] at hwb
      simp only [updateLoad]
      by_cases hid : id = b
      · left
        rw [if_pos hid, ← hwb.1]
        exact hfeas
      · right
        rw [if_neg hid]

/-- Per-cluster step: load counters track the appended assignments exactly. -/
theorem processCluster_corr (vehicles : List Vehicle) (maxPer : Int)
    (st : (Int → Int) × List Assignment) (storeId : Int) (ds : List Delivery)
    (id : Int) :
    (processCluster vehicles maxPer st storeId ds).1 id + assignedLoad st.2 id =
      st.1 id + assignedLoad (processCluster vehicles maxPer st storeId ds).2 id := by
  rcases hb : findBestVehicle vehicles st.1 ds.length maxPer with _ | ⟨b, m⟩
  · simp only [processCluster, hb]
    exact splitAndAssign_corr _ _ _ _ _ _ _
  · simp only [processCluster, hb]
    by_cases hz : b = 0
    · rw [if_pos hz]
      exact splitAndAssign_corr _ _ _ _ _ _ _
    · rw [if_neg hz]
      rw [assignedLoad_append, assignedLoad_single]
      simp only [updateLoad]
      by_cases hid : id = b
      · rw [if_pos hid, if_pos hid.symm]
        have hl : st.1 id = st.1 b := by rw [hid]
        omega
      · rw [if_neg hid, if_neg (fun hh => hid (Eq.symm hh))]
        omega

/-- Per-cluster step: it assigns no more matching deliveries than the cluster
holds, on top of what was already assigned. -/
theorem processCluster_countP (vehicles : List Vehicle) (maxPer : Int)
    (st : (Int → Int) × List Assignment) (storeId : Int) (ds : List Delivery)
    (p : Delivery → Bool) :
    ((processCluster vehicles maxPer st storeId ds).2.flatMap
        Assignment.deliveries).countP p ≤
      (st.2.flatMap Assignment.deliveries).countP p + ds.countP p := by
  rcases hb : findBestVehicle vehicles st.1 ds.length maxPer with _ | ⟨b, m⟩
  · simp only [processCluster, hb]
    exact splitAndAssign_countP _ _ _ _ _ _ _
  · simp only [processCluster, hb]
    by_cases hz : b = 0
    · rw [if_pos hz]
      exact splitAndAssign_countP _ _ _ _ _ _ _
    · rw [if_neg hz]
      rw [List.flatMap_append, List.countP_append]
      simp only [List.flatMap_cons, List.flatMap_nil, List.append_nil]
      omega

/-- Folded over any cluster list: every load is within the cap or untouched. -/
theorem assignFold_loads_bound (vehicles : List Vehicle) (maxPer : Int)
    (cs : List (Int × List Delivery)) :
    ∀ (st : (Int → Int) × List Assignment) (id : Int),
      ((cs.foldl (fun st c => processCluster vehicles maxPer st c.1 c.2) st).1 id
          ≤ maxPer) ∨
        ((cs.foldl (fun st c => processCluster vehicles maxPer st c.1 c.2) st).1 id
          = st.1 id) := by
  induction cs with
  | nil => intro st id; right; rfl
  | cons c cs ih =>
    intro st id
    rw [List.foldl_cons]
    rcases ih (processCluster vehicles maxPer st c.1 c.2) id with hle | heq
    · exact Or.inl hle
    · rw [heq]
      exact processCluster_loads_bound _ _ _ _ _ _

/-- Folded over any cluster list: final loads equal initial loads plus the
assigned-delivery totals of the produced assignments. -/
theorem assignFold_corr (vehicles : List Vehicle) (maxPer : Int)
    (cs : List (Int × List Delivery)) :
    ∀ (st : (Int → Int) × List Assignment) (id : Int),
      (cs.foldl (fun st c => processCluster vehicles maxPer st c.1 c.2) st).1 id
          + assignedLoad st.2 id =
        st.1 id +
          assignedLoad
            (cs.foldl (fun st c => processCluster vehicles maxPer st c.1 c.2) st).2 id := by
  induction cs with
  | nil => intro st id; rfl
  | cons c cs ih =>
    intro st id
    rw [List.foldl_cons]
    have h1 := ih (processCluster vehicles maxPer st c.1 c.2) id
    have h2 := processCluster_corr vehicles maxPer st c.1 c.2 id
    omega

/-- Folded over any cluster list: the produced assignments never hold more
matching deliveries than the clusters provided. -/
theorem assignFold_countP (vehicles : List Vehicle) (maxPer : Int)
    (cs : List (Int × List Delivery)) :
    ∀ (st : (Int → Int) × List Assignment) (p : Delivery → Bool),
      ((cs.foldl (fun st c => processCluster vehicles maxPer st c.1 c.2) st).2.flatMap
          Assignment.deliveries).countP p ≤
        (st.2.flatMap Assignment.deliveries).countP p +
          (cs.flatMap (fun c => c.2)).countP p := by
  induction cs with
  | nil => intro st p; simp
  | cons c cs ih =>
    intro st p
    rw [List.foldl_cons, List.flatMap_cons, List.countP_append]
    have h1 := ih (processCluster vehicles maxPer st c.1 c.2) p
    have h2 := processCluster_countP vehicles maxPer st c.1 c.2 p
    omega

/-! ## Lemmas about clustering -/

theorem insertKey_nodup (ks : List Int) (k : Int) (h : ks.Nodup) :
    (insertKey ks k).Nodup := by
  rw [insertKey]
  by_cases hk : k ∈ ks
  · rw [if_pos hk]
    exact h
  · rw [if_neg hk]
    simpa [List.nodup_append] using ⟨h, hk⟩

theorem insertKey_mem (ks : List Int) (k j : Int) :
    j ∈ insertKey ks k ↔ j ∈ ks ∨ j = k := by
  rw [insertKey]
  by_cases hk : k ∈ ks
  · rw [if_pos hk]
    constructor
    · exact Or.inl
    · rintro (h | rfl)
      · exact h
      · exact hk
  · rw [if_neg hk]
    simp

theorem foldl_insertKey_nodup (ds : List Delivery) :
    ∀ (ks : List Int), ks.Nodup →
      (ds.foldl (fun ks d => insertKey ks d.storeId) ks).Nodup := by
  induction ds with
  | nil => intro ks h; exact h
  | cons d ds ih =>
    intro ks h
    rw [List.foldl_cons]
    exact ih _ (insertKey_nodup _ _ h)

theorem foldl_insertKey_mem (ds : List Delivery) :
    ∀ (ks : List Int) (j : Int),
      j ∈ ds.foldl (fun ks d => insertKey ks d.storeId) ks ↔
        j ∈ ks ∨ ∃ d ∈ ds, d.storeId = j := by
  induction ds with
  | nil => simp
  | cons d ds ih =>
    intro ks j
    rw [List.foldl_cons, ih, insertKey_mem]
    constructor
    · rintro ((h | rfl) | ⟨e, he, rfl⟩)
      · exact Or.inl h
      · exact Or.inr ⟨d, List.mem_cons_self _ _, rfl⟩
      · exact Or.inr ⟨e, List.mem_cons_of_mem _ he, rfl⟩
    · rintro (h | ⟨e, he, rfl⟩)
      · exact Or.inl (Or.inl h)
      · rcases List.mem_cons.mp he with rfl | he2
        · exact Or.inl (Or.inr rfl)
        · exact Or.inr ⟨e, he2, rfl⟩

theorem storeKeys_nodup (ds : List Delivery) : (storeKeys ds).Nodup :=
  foldl_insertKey_nodup ds [] List.nodup_nil

theorem mem_storeKeys (ds : List Delivery) (d : Delivery) (hd : d ∈ ds) :
    d.storeId ∈ storeKeys ds := by
  rw [storeKeys, foldl_insertKey_mem]
  exact Or.inr ⟨d, hd, rfl⟩

theorem flatMap_congr_mem (l : List Int) (f g : Int → List Delivery)
    (h : ∀ a ∈ l, f a = g a) : l.flatMap f = l.flatMap g := by
  induction l with
  | nil => rfl
  | cons a l ih =>
    rw [List.flatMap_cons, List.flatMap_cons, h a (List.mem_cons_self _ _),
      ih (fun b hb => h b (List.mem_cons_of_mem _ hb))]

theorem filter_store_of_ne (ds : List Delivery) (s t : Int) (hst : t ≠ s) :
    ds.filter (fun d => d.storeId = t) =
      (ds.filter (fun d => !(decide (d.storeId = s)))).filter
        (fun d => d.storeId = t) := by
  induction ds with
  | nil => rfl
  | cons d ds ih =>
    by_cases hdt : d.storeId = t
    · have hds : ¬ d.storeId = s := by
        rw [hdt]
        exact hst
      simp [List.filter_cons, hdt, hds, hst, ih]
    · by_cases hds : d.storeId = s
      · simp only [List.filter_cons, hdt, hds, ih]
        simp
        exact fun hh => hst hh.symm
      · simp [List.filter_cons, hdt, hds, ih]

/-- Grouping by a duplicate-free covering key list partitions the deliveries. -/
theorem flatMap_filter_perm (ks : List Int) :
    ∀ (ds : List Delivery), ks.Nodup → (∀ d ∈ ds, d.storeId ∈ ks) →
      (ks.flatMap (fun s => ds.filter (fun d => d.storeId = s))).Perm ds := by
  induction ks with
  | nil =>
    intro ds _ hcov
    cases ds with
    | nil => simp
    | cons d ds => exact absurd (hcov d (List.mem_cons_self _ _)) (List.not_mem_nil _)
  | cons s ks ih =>
    intro ds hnd hcov
    rw [List.flatMap_cons]
    have hmap : ks.flatMap (fun t => ds.filter (fun d => d.storeId = t)) =
        ks.flatMap (fun t =>
          (ds.filter (fun d => !(decide (d.storeId = s)))).filter
            (fun d => d.storeId = t)) := by
      apply flatMap_congr_mem
      intro t ht
      have hts : t ≠ s := by
        rintro rfl
        exact (List.nodup_cons.mp hnd).1 ht
      exact filter_store_of_ne ds s t hts
    rw [hmap]
    have hcov2 : ∀ d ∈ ds.filter (fun d => !(decide (d.storeId = s))),
        d.storeId ∈ ks := by
      intro d hd
      rw [List.mem_filter] at hd
      rcases List.mem_cons.mp (hcov d hd.1) with heq | hmem
      · exfalso
        have h2 := hd.2
        rw [heq] at h2
        simp at h2
      · exact hmem
    have ihp := ih (ds.filter (fun d => !(decide (d.storeId = s))))
      (List.nodup_cons.mp hnd).2 hcov2
    exact List.Perm.trans (List.Perm.append_left _ ihp) (List.filter_append_perm _ ds)

theorem countP_flatMap (l : List (Int × List Delivery)) (p : Delivery → Bool) :
    (l.flatMap (fun c => c.2)).countP p =
      (l.map (fun c => (c.2.countP p : Nat))).sum := by
  induction l with
  | nil => rfl
  | cons c l ih => simp [List.flatMap_cons, List.countP_append, ih]

theorem flatMap_snd_map (ks : List Int) (f : Int → List Delivery) :
    ((ks.map (fun s => (s, f s))).flatMap (fun c => c.2)) = ks.flatMap f := by
  induction ks with
  | nil => rfl
  | cons k ks ih => simp [List.flatMap_cons, ih]

/-- Clustering partitions: counting any property over all clusters' deliveries
equals counting it over the pending list. -/
theorem countP_clusters (ds : List Delivery) (p : Delivery → Bool) :
    ((clusterDeliveriesByStore ds).flatMap (fun c => c.2)).countP p =
      ds.countP p := by
  rw [clusterDeliveriesByStore, flatMap_snd_map]
  exact List.Perm.countP_eq p
    (flatMap_filter_perm (storeKeys ds) ds (storeKeys_nodup ds) (mem_storeKeys ds))

/-- Sorting the clusters does not change any delivery counts. -/
theorem countP_sortClusters (cs : List (Int × List Delivery)) (p : Delivery → Bool) :
    ((sortClustersBySizeDesc cs).flatMap (fun c => c.2)).countP p =
      (cs.flatMap (fun c => c.2)).countP p := by
  rw [countP_flatMap, countP_flatMap]
  exact List.Perm.sum_eq (List.Perm.map _ (List.mergeSort_perm cs _))

/-- The initial `vehicle_loads` dict maps each id that occurs in the vehicle list
to the `Current_Load` of one of its vehicles (the last, under duplicate ids). -/
theorem initLoads_spec (vehicles : List Vehicle) :
    ∀ (m : Int → Int) (id : Int),
      ((vehicles.foldl (fun m v => updateLoad m v.vehicleId v.currentLoad) m) id = m id
        ∧ ∀ v ∈ vehicles, v.vehicleId ≠ id) ∨
      (∃ v ∈ vehicles, v.vehicleId = id ∧
        (vehicles.foldl (fun m v => updateLoad m v.vehicleId v.currentLoad) m) id
          = v.currentLoad) := by
  induction vehicles with
  | nil => intro m id; exact Or.inl ⟨rfl, by simp⟩
  | cons v vs ih =>
    intro m id
    rw [List.foldl_cons]
    rcases ih (updateLoad m v.vehicleId v.currentLoad) id with ⟨heq, hnone⟩ | ⟨w, hw, hid, hval⟩
    · by_cases hv : v.vehicleId = id
      · right
        refine ⟨v, List.mem_cons_self _ _, hv, ?_⟩
        rw [heq]
        simp only [updateLoad]
        rw [if_pos hv.symm]
      · left
        refine ⟨?_, ?_⟩
        · rw [heq]
          simp only [updateLoad]
          rw [if_neg (fun hh => hv hh.symm)]
        · intro w hw
          rcases List.mem_cons.mp hw with rfl | hw2
          · exact hv
          · exact hnone w hw2
    · right
      exact ⟨w, List.mem_cons_of_mem _ hw, hid, hval⟩

/-- A listed vehicle's initial tracked load is bounded whenever every listed
vehicle's `Current_Load` is. -/
theorem initLoads_le (vehicles : List Vehicle) (maxPer : Int)
    (hload : ∀ v ∈ vehicles, v.currentLoad ≤ maxPer) (v : Vehicle)
    (hv : v ∈ vehicles) : initLoads vehicles v.vehicleId ≤ maxPer := by
  rcases initLoads_spec vehicles (fun _ => 0) v.vehicleId with ⟨-, hnone⟩ | ⟨w, hw, -, hval⟩
  · exact absurd rfl (hnone v hv)
  · rw [initLoads, hval]
    exact hload w hw

/-- Sorting a one-cluster list is the identity (used to evaluate concrete runs,
since `mergeSort` does not reduce definitionally). -/
theorem sortClusters_singleton (c : Int × List Delivery) :
    sortClustersBySizeDesc [c] = [c] :=
  List.perm_singleton.mp (List.mergeSort_perm [c] _)

/-- Unfolding of the assignment driver. -/
theorem assignClustersToVehicles_eq (clusters : List (Int × List Delivery))
    (vehicles : List Vehicle) (maxPer : Int) :
    assignClustersToVehicles clusters vehicles maxPer =
      (sortClustersBySizeDesc clusters).foldl
        (fun st c => processCluster vehicles maxPer st c.1 c.2)
        (initLoads vehicles, []) := rfl

/-- **C1**: in every `optimize_routes` run in which each available vehicle's
initial `Current_Load` is at most `max_per_vehicle`, no vehicle's final
assigned-delivery count — its initial load plus the sizes of all clusters and
split chunks the run assigns to it — exceeds `max_per_vehicle`, covering both the
whole-cluster path and the overflow-split path. -/
theorem greedy_capacity_invariant (pending : List Delivery)
    (vehicles : List Vehicle) (maxPer : Int)
    (hload : ∀ v ∈ vehicles, v.currentLoad ≤ maxPer) :
    ∀ v ∈ vehicles,
      initLoads vehicles v.vehicleId +
        assignedLoad
          (assignClustersToVehicles (clusterDeliveriesByStore pending)
            vehicles maxPer).2 v.vehicleId ≤ maxPer := by
  intro v hv
  have hcorr :
      (assignClustersToVehicles (clusterDeliveriesByStore pending)
          vehicles maxPer).1 v.vehicleId + assignedLoad [] v.vehicleId =
        initLoads vehicles v.vehicleId +
          assignedLoad
            (assignClustersToVehicles (clusterDeliveriesByStore pending)
              vehicles maxPer).2 v.vehicleId :=
    assignFold_corr vehicles maxPer _ (initLoads vehicles, []) v.vehicleId
  rw [assignedLoad_nil] at hcorr
  have hbound :
      (assignClustersToVehicles (clusterDeliveriesByStore pending)
          vehicles maxPer).1 v.vehicleId ≤ maxPer ∨
        (assignClustersToVehicles (clusterDeliveriesByStore pending)
            vehicles maxPer).1 v.vehicleId = initLoads vehicles v.vehicleId :=
    assignFold_loads_bound vehicles maxPer _ (initLoads vehicles, []) v.vehicleId
  have hinit := initLoads_le vehicles maxPer hload v hv
  rcases hbound with hle | heq
  · omega
  · omega

/-- Witness for C1 at a concrete input: one vehicle with initial load 2, one
pending delivery, cap 10. -/
theorem greedy_capacity_invariant_witness :
    initLoads [Vehicle.mk 7 2] (Vehicle.mk 7 2).vehicleId +
      assignedLoad
        (assignClustersToVehicles (clusterDeliveriesByStore [Delivery.mk 1 5])
          [Vehicle.mk 7 2] 10).2 (Vehicle.mk 7 2).vehicleId ≤ 10 :=
  greedy_capacity_invariant [Delivery.mk 1 5] [Vehicle.mk 7 2] 10 (by decide)
    (Vehicle.mk 7 2) (by simp)

/-- **C2 counterexample**: a single available vehicle with the falsy id `0` and a
one-delivery cluster under cap 10.  The vehicle has ample spare capacity, so the
claim requires the cluster to be assigned whole to it; but `if best_vehicle:` is
false for the integer id `0`, the run falls into the split path, whose
`if not best_vehicle` break discards the work, and no assignment at all is
produced. -/
theorem cluster_integrity_counterexample :
    (∃ v ∈ [Vehicle.mk 0 0],
      v.currentLoad + (([Delivery.mk 1 5].length : Nat) : Int) ≤ 10) ∧
    (assignClustersToVehicles (clusterDeliveriesByStore [Delivery.mk 1 5])
        [Vehicle.mk 0 0] 10).2 = [] := by
  constructor
  · exact ⟨Vehicle.mk 0 0, by simp, by norm_num⟩
  · rw [assignClustersToVehicles_eq]
    have hcl : clusterDeliveriesByStore [Delivery.mk 1 5] =
        [(5, [Delivery.mk 1 5])] := by
      simp [clusterDeliveriesByStore, storeKeys, insertKey]
    rw [hcl, sortClusters_singleton]
    rw [List.foldl_cons, List.foldl_nil]
    have hbest : findBestVehicle [Vehicle.mk 0 0] (initLoads [Vehicle.mk 0 0])
        ([Delivery.mk 1 5].length : Int) 10 = some (0, 0) := by
      simp [findBestVehicle, findBestVehicleAux, initLoads, updateLoad]
    simp only [processCluster, hbest, if_true]
    rw [splitAndAssign_stop]
    intro b maxCap hb
    simp [findMaxCap, findMaxCapAux, initLoads, updateLoad] at hb
    rcases hb with ⟨h1, h2⟩
    omega

/-- **C2 (amended)**: *provided every available vehicle's identifier is nonzero
(truthy in Python)*, a cluster for which some vehicle has spare capacity — and
whose size is within the cap — is assigned whole, atomically, to the first
vehicle in list order among the feasible vehicles with the lowest current load
(the spec-worded `specBestVehicle`); it is never split in that situation.  The
unamended claim fails when the chosen vehicle's id is the falsy integer 0. -/
theorem cluster_integrity_amended (vehicles : List Vehicle) (loads : Int → Int)
    (asg : List Assignment) (storeId : Int) (ds : List Delivery) (maxPer : Int)
    (hid : ∀ v ∈ vehicles, v.vehicleId ≠ 0)
    (hsize : (ds.length : Int) ≤ maxPer)
    (hfeas : ∃ v ∈ vehicles, loads v.vehicleId + (ds.length : Int) ≤ maxPer) :
    ∃ w, specBestVehicle vehicles loads ds.length maxPer = some w ∧
      w ∈ vehicles ∧ loads w.vehicleId + ds.length ≤ maxPer ∧
      processCluster vehicles maxPer (loads, asg) storeId ds =
        (updateLoad loads w.vehicleId (loads w.vehicleId + ds.length),
         asg ++ [⟨w.vehicleId, storeId, ds⟩]) := by
  rcases specBestVehicle_isSome vehicles loads ds.length maxPer hfeas with ⟨w, hw⟩
  rcases specBestVehicle_sound _ _ _ _ _ hw with ⟨hmem, hfe⟩
  refine ⟨w, hw, hmem, hfe, ?_⟩
  have hfb : findBestVehicle vehicles loads (ds.length : Int) maxPer =
      some (w.vehicleId, loads w.vehicleId) := by
    rw [findBestVehicle_eq_spec, hw]
    rfl
  simp only [processCluster, hfb]
  rw [if_neg (hid w hmem)]

/-- Witness for the amended C2 at a concrete input: one vehicle with the truthy
id 7 and load 0, a one-delivery cluster, cap 10. -/
theorem cluster_integrity_amended_witness :
    ∃ w, specBestVehicle [Vehicle.mk 7 0] (initLoads [Vehicle.mk 7 0])
        ([Delivery.mk 1 5].length) 10 = some w ∧
      w ∈ [Vehicle.mk 7 0] ∧
      initLoads [Vehicle.mk 7 0] w.vehicleId + ([Delivery.mk 1 5].length : Int) ≤ 10 ∧
      processCluster [Vehicle.mk 7 0] 10 (initLoads [Vehicle.mk 7 0], []) 5
          [Delivery.mk 1 5] =
        (updateLoad (initLoads [Vehicle.mk 7 0]) w.vehicleId
          (initLoads [Vehicle.mk 7 0] w.vehicleId + ([Delivery.mk 1 5].length : Int)),
         [] ++ [⟨w.vehicleId, 5, [Delivery.mk 1 5]⟩]) :=
  cluster_integrity_amended [Vehicle.mk 7 0] (initLoads [Vehicle.mk 7 0]) [] 5
    [Delivery.mk 1 5] 10 (by decide) (by decide)
    ⟨Vehicle.mk 7 0, by simp, by decide⟩

/-- **C9**: in every `optimize_routes` run whose pending deliveries carry
pairwise-distinct `Order_ID`s, each order id occurs in at most one position of
the produced assignments' delivery lists — no delivery receives more than one
vehicle update. -/
theorem no_duplicate_assignment (pending : List Delivery)
    (vehicles : List Vehicle) (maxPer : Int)
    (hnodup : (pending.map Delivery.orderId).Nodup) (oid : Int) :
    ((assignClustersToVehicles (clusterDeliveriesByStore pending)
        vehicles maxPer).2.flatMap Assignment.deliveries).countP
      (fun d => d.orderId = oid) ≤ 1 := by
  have h1 :
      ((assignClustersToVehicles (clusterDeliveriesByStore pending)
          vehicles maxPer).2.flatMap Assignment.deliveries).countP
        (fun d => decide (d.orderId = oid)) ≤
      (([] : List Assignment).flatMap Assignment.deliveries).countP
        (fun d => decide (d.orderId = oid)) +
        ((sortClustersBySizeDesc (clusterDeliveriesByStore pending)).flatMap
          (fun c => c.2)).countP (fun d => decide (d.orderId = oid)) :=
    assignFold_countP vehicles maxPer _ (initLoads vehicles, []) _
  rw [countP_sortClusters, countP_clusters] at h1
  simp only [List.flatMap_nil, List.countP_nil, Nat.zero_add] at h1
  have h2 : pending.countP (fun d => decide (d.orderId = oid)) =
      List.count oid (pending.map Delivery.orderId) := by
    rw [List.count, List.countP_map]
    apply List.countP_congr
    intro d hd
    simp
  have h3 := List.nodup_iff_count_le_one.mp hnodup oid
  omega

/-- Witness for C9 at a concrete input: two pending deliveries with distinct
order ids for the same store, one vehicle, cap 10; order id 1 is assigned at most
once. -/
theorem no_duplicate_assignment_witness :
    ((assignClustersToVehicles
        (clusterDeliveriesByStore [Delivery.mk 1 1, Delivery.mk 2 1])
        [Vehicle.mk 7 0] 10).2.flatMap Assignment.deliveries).countP
      (fun d => d.orderId = 1) ≤ 1 :=
  no_duplicate_assignment [Delivery.mk 1 1, Delivery.mk 2 1] [Vehicle.mk 7 0] 10
    (by decide) 1

/-! ## Predictor claims -/

/-- **C10**: `save_model` called on an untrained predictor raises the hard error
`"Cannot save untrained model"` and writes nothing (no bundle is produced); a
serialized bundle can only ever come from a trained state. -/
theorem save_model_guard (st : PredictorState) :
    (st.isTrained = false → saveModel st = .error "Cannot save untrained model") ∧
    (∀ b, saveModel st = .ok b → st.isTrained = true) := by
  constructor
  · intro h
    simp [saveModel, h]
  · intro b hb
    cases hstate : st.isTrained
    · simp [saveModel, hstate] at hb
    · rfl

/-- Witness for C10: a freshly constructed predictor is untrained, and saving it
is refused. -/
theorem save_model_guard_witness :
    saveModel initialPredictor = .error "Cannot save untrained model" :=
  (save_model_guard initialPredictor).1 rfl

/-- `commitSimple` only returns states with `is_trained = True`. -/
theorem commitSimple_ok (st : PredictorState) (tbl : OrderTable)
    (p : PredictorState × TrainReport) (h : commitSimple st tbl = .ok p) :
    p.1.isTrained = true := by
  rcases h2 : simpleMetricsE tbl with e | rep
  · simp only [commitSimple, h2] at h
    exact Except.noConfusion h
  · simp only [commitSimple, h2, Except.ok.injEq] at h
    rw [← h]

/-- **C3**: whenever `train` returns (rather than raising), the predictor has
committed either a regression model or the simple per-hour-average fallback, and
`is_trained` is true; training never returns from a half-configured state. -/
theorem train_commits_trained (st : PredictorState) (tbl : OrderTable)
    (env : TrainEnv) (p : PredictorState × TrainReport)
    (h : train st tbl env = .ok p) : p.1.isTrained = true := by
  simp only [train] at h
  split at h
  · exact Except.noConfusion h
  · split at h
    · exact Except.noConfusion h
    · split at h
      · exact Except.noConfusion h
      · split at h
        · exact commitSimple_ok _ _ _ h
        · split at h
          · exact commitSimple_ok _ _ _ h
          · split at h
            · exact commitSimple_ok _ _ _ h
            · split at h
              · simp only [Except.ok.injEq] at h
                rw [← h]
              · split at h
                · exact commitSimple_ok _ _ _ h
                · split at h
                  · simp only [Except.ok.injEq] at h
                    rw [← h]
                  · exact commitSimple_ok _ _ _ h

/-- Evaluation of a concrete training run: one row (hour 9, 8 minutes), no useful
regression fit; the run commits the simple fallback. -/
theorem trainExSimple_eval :
    train initialPredictor exSimpleTbl envNoUsefulFit =
      .ok (exSimpleState, ⟨1, "Simple Time-Based"⟩) := by
  have hp9 : parseHour "9" = some 9 := by decide
  have hq : qmean [(8 : ℚ)] = 8 := by
    norm_num [qmean]
  simp [train, exSimpleTbl, exSimpleRow, envNoUsefulFit, mapExcept, trainRowHour,
    hp9, groupMeans, insertKey, List.filterMap, hq, prepareFeatures, featureRowE,
    featureOrderHour, commitSimple, simpleMetricsE, exSimpleState,
    initialPredictor]

/-- Witness for C3: the concrete run `trainExSimple_eval` returns, and the
theorem applied to it yields `is_trained = true`. -/
theorem train_commits_trained_witness :
    (exSimpleState, (⟨1, "Simple Time-Based"⟩ : TrainReport)).1.isTrained = true :=
  train_commits_trained initialPredictor exSimpleTbl envNoUsefulFit
    (exSimpleState, ⟨1, "Simple Time-Based"⟩) trainExSimple_eval

/-- **C5 counterexample**: the feature schema produced by `prepare_features` (the
16 columns created at lines 63–133, in order — this is exactly what `train`
records as `self.feature_names`) contains no `rush_intensity` feature, so the
output vector cannot contain the claimed weighted-sum composite. -/
theorem rush_intensity_counterexample :
    "rush_intensity" ∉ featureNames ∧ featureNames.length = 16 := by
  constructor
  · decide
  · rfl

/-- Each indicator column holds 0 or 1. -/
theorem indQ_cases (b : Bool) : indQ b = 0 ∨ indQ b = 1 := by
  cases b
  · exact Or.inl rfl
  · exact Or.inr rfl

/-- **C5 (amended)**: for every produced feature row, each of the four rush-hour
indicators is 0/1 and at most one of them fires (their four intervals are
pairwise disjoint — this holds for *every* order hour, in particular for hours in
`[0, 23]`); but the output contains no `rush_intensity` feature at all: the
claimed composite `1.2·morning + 1.5·lunch + 1.8·dinner + 0.8·late_night` is not
part of the 16-column schema. -/
theorem rush_hour_partition (st : PredictorState) (tbl : OrderTable) (r : OrderRow)
    (fr : FeatureRow) (h : featureRowE st tbl r = .ok fr) :
    (fr.is_morning_rush = 0 ∨ fr.is_morning_rush = 1) ∧
    (fr.is_lunch_rush = 0 ∨ fr.is_lunch_rush = 1) ∧
    (fr.is_dinner_rush = 0 ∨ fr.is_dinner_rush = 1) ∧
    (fr.is_late_night = 0 ∨ fr.is_late_night = 1) ∧
    fr.is_morning_rush + fr.is_lunch_rush + fr.is_dinner_rush + fr.is_late_night ≤ 1 ∧
    "rush_intensity" ∉ featureNames := by
  rcases hho : featureOrderHour tbl r with e | ho
  · simp only [featureRowE, hho] at h
    exact Except.noConfusion h
  · simp only [featureRowE, hho, Except.ok.injEq] at h
    subst h
    refine ⟨indQ_cases _, indQ_cases _, indQ_cases _, indQ_cases _, ?_, by decide⟩
    rcases ho with _ | q
    · simp [indQ]
    · have e12 : ¬(((7:ℚ) ≤ q ∧ q ≤ 9) ∧ ((11:ℚ) ≤ q ∧ q ≤ 14)) := by
        rintro ⟨⟨a1, b1⟩, ⟨a2, b2⟩⟩
        linarith
      have e13 : ¬(((7:ℚ) ≤ q ∧ q ≤ 9) ∧ ((17:ℚ) ≤ q ∧ q ≤ 20)) := by
        rintro ⟨⟨a1, b1⟩, ⟨a2, b2⟩⟩
        linarith
      have e14 : ¬(((7:ℚ) ≤ q ∧ q ≤ 9) ∧ ((22:ℚ) ≤ q ∨ q ≤ 5)) := by
        rintro ⟨⟨a1, b1⟩, a2 | a2⟩ <;> linarith
      have e23 : ¬(((11:ℚ) ≤ q ∧ q ≤ 14) ∧ ((17:ℚ) ≤ q ∧ q ≤ 20)) := by
        rintro ⟨⟨a1, b1⟩, ⟨a2, b2⟩⟩
        linarith
      have e24 : ¬(((11:ℚ) ≤ q ∧ q ≤ 14) ∧ ((22:ℚ) ≤ q ∨ q ≤ 5)) := by
        rintro ⟨⟨a1, b1⟩, a2 | a2⟩ <;> linarith
      have e34 : ¬(((17:ℚ) ≤ q ∧ q ≤ 20) ∧ ((22:ℚ) ≤ q ∨ q ≤ 5)) := by
        rintro ⟨⟨a1, b1⟩, a2 | a2⟩ <;> linarith
      by_cases h1 : (7:ℚ) ≤ q ∧ q ≤ 9
      · have z2 : ¬((11:ℚ) ≤ q ∧ q ≤ 14) := fun hp => e12 ⟨h1, hp⟩
        have z3 : ¬((17:ℚ) ≤ q ∧ q ≤ 20) := fun hp => e13 ⟨h1, hp⟩
        have z4 : ¬((22:ℚ) ≤ q ∨ q ≤ 5) := fun hp => e14 ⟨h1, hp⟩
        simp [indQ, h1, z2, z3, z4]
      · by_cases h2 : (11:ℚ) ≤ q ∧ q ≤ 14
        · have z3 : ¬((17:ℚ) ≤ q ∧ q ≤ 20) := fun hp => e23 ⟨h2, hp⟩
          have z4 : ¬((22:ℚ) ≤ q ∨ q ≤ 5) := fun hp => e24 ⟨h2, hp⟩
          simp [indQ, h1, h2, z3, z4]
        · by_cases h3 : (17:ℚ) ≤ q ∧ q ≤ 20
          · have z4 : ¬((22:ℚ) ≤ q ∨ q ≤ 5) := fun hp => e34 ⟨h3, hp⟩
            simp [indQ, h1, h2, h3, z4]
          · by_cases h4 : (22:ℚ) ≤ q ∨ q ≤ 5
            · simp [indQ, h1, h2, h3, h4]
            · simp [indQ, h1, h2, h3, h4]

/-- Evaluation: the feature row of the all-missing row in the all-columns table
is exactly the defaults row. -/
theorem featureRow_blank_eval :
    featureRowE initialPredictor exDefaultsTbl blankOrderRow =
      .ok defaultFeatureRow := by
  simp only [featureRowE, featureOrderHour, featureDayOfWeek, featureStoreAvgTime,
    featureStoreAvgPrep, featureVehicleAvgTime, exDefaultsTbl, blankOrderRow,
    initialPredictor, defaultFeatureRow, indQ]
  norm_num

/-- Witness for the amended C5, applying it to the concrete defaults row (hour
12: only the lunch indicator fires). -/
theorem rush_hour_partition_witness :
    (defaultFeatureRow.is_morning_rush = 0 ∨ defaultFeatureRow.is_morning_rush = 1) ∧
    (defaultFeatureRow.is_lunch_rush = 0 ∨ defaultFeatureRow.is_lunch_rush = 1) ∧
    (defaultFeatureRow.is_dinner_rush = 0 ∨ defaultFeatureRow.is_dinner_rush = 1) ∧
    (defaultFeatureRow.is_late_night = 0 ∨ defaultFeatureRow.is_late_night = 1) ∧
    defaultFeatureRow.is_morning_rush + defaultFeatureRow.is_lunch_rush +
        defaultFeatureRow.is_dinner_rush + defaultFeatureRow.is_late_night ≤ 1 ∧
    "rush_intensity" ∉ featureNames :=
  rush_hour_partition initialPredictor exDefaultsTbl blankOrderRow
    defaultFeatureRow featureRow_blank_eval

theorem mapExcept_ok_length (f : α → Except String β) :
    ∀ (l : List α) (bs : List β), mapExcept f l = .ok bs → bs.length = l.length := by
  intro l
  induction l with
  | nil =>
    intro bs h
    simp only [mapExcept, Except.ok.injEq] at h
    rw [← h]
    rfl
  | cons a as ih =>
    intro bs h
    simp only [mapExcept] at h
    rcases ha : f a with e | b
    · rw [ha] at h
      exact Except.noConfusion h
    · rw [ha] at h
      rcases has : mapExcept f as with e | bs2
      · rw [has] at h
        exact Except.noConfusion h
      · rw [has] at h
        simp only [Except.ok.injEq] at h
        rw [← h]
        simp [ih bs2 has]

/-- A successful `prepare_features` returns one feature row per input row. -/
theorem prepareFeatures_length (st : PredictorState) (tbl : OrderTable)
    (X : List FeatureRow) (h : prepareFeatures st tbl = .ok X) :
    X.length = tbl.rows.length :=
  mapExcept_ok_length _ _ _ h

/-- **C7**: for a trained predictor in regression mode, on a non-empty input
row-set, whenever `predict` returns it returns exactly one prediction per input
row (in order, one `X` row per input row), and every returned prediction is at
least the 10-minute floor. -/
theorem predict_regression_floor (st : PredictorState) (tbl : OrderTable)
    (ps : List ℚ) (ht : st.isTrained = true) (hs : st.useSimple = false)
    (hne : tbl.rows ≠ []) (h : predict st tbl = .ok ps) :
    ps.length = tbl.rows.length ∧ ∀ p ∈ ps, 10 ≤ p := by
  simp only [predict, ht, hs, Bool.not_true, Bool.false_eq_true, if_false] at h
  rcases hX : prepareFeatures st tbl with e | X
  · simp only [hX] at h
    exact Except.noConfusion h
  · simp only [hX] at h
    have hlen := prepareFeatures_length st tbl X hX
    by_cases hemp : X.isEmpty
    · exfalso
      rw [List.isEmpty_iff] at hemp
      rw [hemp] at hlen
      exact hne (List.eq_nil_of_length_eq_zero hlen.symm)
    · rw [if_neg hemp] at h
      rcases hm : st.model with _ | f
      · simp only [hm] at h
        exact Except.noConfusion h
      · simp only [hm, Except.ok.injEq] at h
        rw [← h]
        constructor
        · rw [List.length_map, hlen]
        · intro p hp
          rcases List.mem_map.mp hp with ⟨x, -, rfl⟩
          exact le_max_right _ _

/-- Evaluation of a concrete regression-mode prediction: the abstract fitted
pipeline returns 0, and the floor lifts it to 10. -/
theorem predictReg_eval : predict exRegPredictor exPredictTbl = .ok [10] := by
  simp [predict, exRegPredictor, exPredictTbl, blankOrderRow, prepareFeatures,
    mapExcept, featureRowE, featureOrderHour]

/-- Witness for C7 at the concrete regression run `predictReg_eval`. -/
theorem predict_regression_floor_witness :
    ([(10 : ℚ)].length = exPredictTbl.rows.length) ∧ ∀ p ∈ [(10 : ℚ)], 10 ≤ p :=
  predict_regression_floor exRegPredictor exPredictTbl [10] rfl rfl
    (by simp [exPredictTbl]) predictReg_eval

theorem mapExcept_ok_of_forall (f : α → Except String β) (dflt : β) :
    ∀ (l : List α), (∀ a ∈ l, ∃ b, f a = .ok b) →
      mapExcept f l = .ok (l.map (fun a => okValue (f a) dflt)) := by
  intro l
  induction l with
  | nil => intro _; rfl
  | cons a as ih =>
    intro hall
    rcases hall a (List.mem_cons_self _ _) with ⟨b, hb⟩
    simp only [mapExcept, hb, List.map_cons,
      ih (fun x hx => hall x (List.mem_cons_of_mem _ hx))]
    simp [okValue, hb]

/-- **C6 counterexample**: a one-row table whose `Order_Time` is the unparseable
string `"noon"`.  The claim says such a value falls back to the default hour 12;
in fact `int("noon")` raises `ValueError` and `prepare_features` does not return
at all. -/
theorem feature_builder_counterexample :
    prepareFeatures initialPredictor exBadTimeTbl =
      .error "ValueError: invalid literal for int() with base 10" := by
  have hp : parseHour "noon" = none := by decide
  rw [prepareFeatures, show exBadTimeTbl.rows = [exBadTimeRow] from rfl]
  simp [mapExcept, featureRowE, featureOrderHour, exBadTimeTbl, exBadTimeRow,
    blankOrderRow, hp]

/-- **C6 (amended)**: provided every value in the order-hour *source* parses
(which holds in particular when all `Order_Time` cells are missing, or the
`Order_Hour` column is present), `prepare_features` returns without error a
fully-populated numeric feature table with exactly one row per input row,
computed by one fixed per-row function — so feeding equal rows (with the same
average tables) yields identical feature vectors; and on its own, a row with
every cell missing produces the documented defaults (hour 12, day-of-week 2,
prep 15, store/vehicle averages 147/15/147).  An *unparseable* `Order_Time`
string, however, raises instead of defaulting. -/
theorem feature_builder_total (st : PredictorState) (tbl : OrderTable)
    (hparse : tbl.hasOrderHour = false → tbl.hasOrderTime = true →
      ∀ r ∈ tbl.rows, ∀ s, r.orderTime = some s → (parseHour s).isSome) :
    (prepareFeatures st tbl =
        .ok (tbl.rows.map
          (fun r => okValue (featureRowE st tbl r) defaultFeatureRow))) ∧
    (tbl.rows.map
        (fun r => okValue (featureRowE st tbl r) defaultFeatureRow)).length
      = tbl.rows.length ∧
    featureRowE initialPredictor exDefaultsTbl blankOrderRow =
      .ok defaultFeatureRow := by
  refine ⟨?_, List.length_map _ _, featureRow_blank_eval⟩
  apply mapExcept_ok_of_forall
  intro r hr
  have hho : ∃ ho, featureOrderHour tbl r = .ok ho := by
    cases hOH : tbl.hasOrderHour
    · cases hOT : tbl.hasOrderTime
      · exact ⟨some 12, by simp [featureOrderHour, hOH, hOT]⟩
      · rcases hot : r.orderTime with _ | str
        · exact ⟨some 12, by simp [featureOrderHour, hOH, hOT, hot]⟩
        · have hps := hparse hOH hOT r hr str hot
          rcases Option.isSome_iff_exists.mp hps with ⟨hour, hhour⟩
          exact ⟨some (hour : ℚ), by simp [featureOrderHour, hOH, hOT, hot, hhour]⟩
    · exact ⟨r.orderHour, by simp [featureOrderHour, hOH]⟩
  rcases hho with ⟨ho, hho⟩
  rcases hfr : featureRowE st tbl r with e | fr
  · exfalso
    simp only [featureRowE, hho] at hfr
    exact Except.noConfusion hfr
  · exact ⟨fr, rfl⟩

/-- Witness for the amended C6: the all-columns, all-missing-cells table. -/
theorem feature_builder_total_witness :
    prepareFeatures initialPredictor exDefaultsTbl =
      .ok (exDefaultsTbl.rows.map
        (fun r =>
          okValue (featureRowE initialPredictor exDefaultsTbl r)
            defaultFeatureRow)) :=
  (feature_builder_total initialPredictor exDefaultsTbl
    (by simp [exDefaultsTbl, blankOrderRow])).1

/-- **C8**: when the committed mode is the simple per-hour fallback, `predict`
returns the raw per-hour historical average with no 10-minute floor: on a
training set whose hour-9 average is 8 minutes (committed to simple mode because
no regression candidate was useful), the prediction for an hour-9 row is 8,
which is below 10. -/
theorem simple_mode_below_floor :
    exSimpleState.useSimple = true ∧
    predict exSimpleState exSimpleTbl = .ok [8] ∧ ((8 : ℚ) < 10) ∧
    train initialPredictor exSimpleTbl envNoUsefulFit =
      .ok (exSimpleState, ⟨1, "Simple Time-Based"⟩) := by
  refine ⟨rfl, ?_, by norm_num, trainExSimple_eval⟩
  simp [predict, exSimpleState, exSimpleTbl, exSimpleRow, predictSimple,
    mapExcept, predictSimpleRowE, simpleLookup]

/-- **C4 counterexample**: ten rows come back from the SQL query (so the
`len(rows) < 10` refusal does not fire), but one of them has a 500-minute derived
prep time, so only nine rows survive the prep-time `[0, 120]` filter — and the
trainer still fits and commits a model on those nine rows instead of returning
`(None, None)`. -/
theorem trainer_counterexample :
    exDbRows.length = 10 ∧
    (exDbRows.filter
        (fun r => decide (0 ≤ prepMinutes r ∧ prepMinutes r ≤ 120))).length = 9 ∧
    (trainModelFromDatabase exDbRows [] [] envRidgeFit).map
        (fun o => o.map (fun p => (p.1.isTrained, p.1.useSimple, p.2)))
      = .ok (some (true, false, ⟨9, "Ridge Regression"⟩)) := by
  have hgood : ∀ oid : Int, prepMinutes (exDbRowGood oid) = 30 := by
    intro oid
    simp [prepMinutes, exDbRowGood]
  have hbad : prepMinutes exDbRowBadPrep = 500 := by
    simp [prepMinutes, exDbRowBadPrep, exDbRowGood]
  have hd1 : decide ((0 : ℚ) ≤ 30) = true := by decide
  have hd2 : decide ((30 : ℚ) ≤ 120) = true := by decide
  have hd3 : decide ((0 : ℚ) ≤ 500) = true := by decide
  have hd4 : decide ((500 : ℚ) ≤ 120) = false := by decide
  have hp10 : parseHour "10" = some 10 := by decide
  have hfilter : exDbRows.filter
      (fun r => decide (0 ≤ prepMinutes r ∧ prepMinutes r ≤ 120)) =
      [exDbRowGood 0, exDbRowGood 1, exDbRowGood 2, exDbRowGood 3, exDbRowGood 4,
       exDbRowGood 5, exDbRowGood 6, exDbRowGood 7, exDbRowGood 8] := by
    simp [exDbRows, List.filter, hgood, hbad, hd1, hd2, hd3, hd4]
  have hfilter2 : exDbRows.filter
      (fun r => decide (0 ≤ prepMinutes r) && decide (prepMinutes r ≤ 120)) =
      [exDbRowGood 0, exDbRowGood 1, exDbRowGood 2, exDbRowGood 3, exDbRowGood 4,
       exDbRowGood 5, exDbRowGood 6, exDbRowGood 7, exDbRowGood 8] := by
    simp [exDbRows, List.filter, hgood, hbad, hd1, hd2, hd3, hd4]
  have hlen : ¬ (exDbRows.length < 10) := by simp [exDbRows]
  have hot : ∀ oid : Int, (exDbRowGood oid).orderTime = "10" := fun _ => rfl
  refine ⟨rfl, ?_, ?_⟩
  · rw [hfilter]
    rfl
  · simp [trainModelFromDatabase, hfilter, hfilter2, hlen, hot, train, mapExcept,
      trainRowHour, hp10, prepareFeatures, featureRowE, featureOrderHour,
      envRidgeFit, saveModel, initialPredictor, groupMeans, insertKey, alookup,
      Except.map]

/-- **C4 (amended)**: `train_model_from_database` returns the `(None, None)`
failure signal, without attempting any fit, whenever *fewer than 10 rows are
returned by the SQL quality filter* (delivery duration present and in [20, 400],
pickup and order times present, trailing 12 months).  The derived prep-time
`[0, 120]` filter runs only *after* this check, so it can shrink the training
set below 10 — even to 9 or fewer — and training proceeds regardless. -/
theorem trainer_refusal (rows : List DbRow) (storeStats : List StoreStatRow)
    (vehicleStats : List VehicleStatRow) (env : TrainEnv)
    (h : rows.length < 10) :
    trainModelFromDatabase rows storeStats vehicleStats env = .ok none := by
  simp only [trainModelFromDatabase]
  rw [if_pos h]

/-- Witness for the amended C4: a single fetched row is refused. -/
theorem trainer_refusal_witness :
    trainModelFromDatabase [exDbRowGood 0] [] [] envRidgeFit = .ok none :=
  trainer_refusal [exDbRowGood 0] [] [] envRidgeFit (by simp)

end TransportationSystem
